import Mathlib

/-!
Verification of the smartExpenseTracker SMS-to-transaction pipeline.

This file shallowly embeds the core of the repository:

* `validateTransactionSms`, the sender/content classifier
  (mobile/src/services/SmartSmsProcessor.ts);
* `parseExpenseWithRegex` and its helpers, the field extractor
  (mobile/src/services/ExpenseParser.ts);
* the store operations `insertTransaction`, `getMerchantMapping`,
  `saveMerchantName`, `updateAllTransactionsForMerchant`,
  `getUnnamedMerchants` (database.ts, SmartSmsProcessor.ts);
* the subscription detector `detectSubscriptions`,
  `detectPatternHeuristic`, `calculateNextDate`.

Modelling conventions:

* Strings are lists of characters (`Str`).  The repository's inputs are
  ASCII bank-SMS text; on that alphabet JavaScript `toUpperCase`,
  `toLowerCase`, SQLite `UPPER` and NFKC normalization all act
  characterwise, and NFKC is the identity.
* JavaScript regular-expression `.test`/`.match` calls are translated
  into explicit scanning functions with the same leftmost-match,
  greedy/lazy semantics; each is annotated with the regex it embeds.
* JavaScript numbers are modelled as `ℚ`.  Every numeric literal and
  every comparison reachable in the embedded code (confidences 0, 0.5, 1
  against thresholds 0.4 and 0.8, day counts, 5%-variance tests on
  rupee amounts) has the same outcome in binary floating point and in
  `ℚ`.
* The SQLite store is explicit state: lists of rows plus the next
  autoincrement id, passed and returned explicitly.
-/

/-- Strings as character lists. -/
abbrev Str := List Char

/-- ASCII decimal digit (JS `\d`). -/
def isDigitCh (c : Char) : Bool := 48 ≤ c.toNat && c.toNat ≤ 57

/-- ASCII lowercase letter. -/
def isLowerCh (c : Char) : Bool := 97 ≤ c.toNat && c.toNat ≤ 122

/-- ASCII uppercase letter. -/
def isUpperCh (c : Char) : Bool := 65 ≤ c.toNat && c.toNat ≤ 90

/-- ASCII letter (JS `[a-zA-Z]`). -/
def isLetterCh (c : Char) : Bool := isUpperCh c || isLowerCh c

/-- ASCII letter or digit. -/
def isAlnumCh (c : Char) : Bool := isLetterCh c || isDigitCh c

/-- JS word character `\w` = letter, digit or underscore. -/
def isWordCh (c : Char) : Bool := isAlnumCh c || c == '_'

/-- JS whitespace class `\s` restricted to the ASCII range:
space, tab, line feed, vertical tab, form feed, carriage return. -/
def isSpaceCh (c : Char) : Bool :=
  c == ' ' || c == '\t' || c == '\n' || c == '\r' || c.toNat == 11 || c.toNat == 12

/-- ASCII lower-casing of one character (JS `toLowerCase`, SQLite `LOWER`). -/
def lowCh (c : Char) : Char := if isUpperCh c then Char.ofNat (c.toNat + 32) else c

/-- ASCII upper-casing of one character (JS `toUpperCase`, SQLite `UPPER`). -/
def upCh (c : Char) : Char := if isLowerCh c then Char.ofNat (c.toNat - 32) else c

/-- ASCII lower-casing of a string. -/
def lowStr (s : Str) : Str := s.map lowCh

/-- ASCII upper-casing of a string (JS `toUpperCase`, SQLite `UPPER`). -/
def upStr (s : Str) : Str := s.map upCh

/-- Case-insensitive "text starts with pattern". -/
def startsWithCI : Str → Str → Bool
  | [], _ => true
  | _ :: _, [] => false
  | p :: ps, c :: cs => (lowCh p == lowCh c) && startsWithCI ps cs

/-- Case-sensitive "text starts with pattern". -/
def startsWithCS : Str → Str → Bool
  | [], _ => true
  | _ :: _, [] => false
  | p :: ps, c :: cs => (p == c) && startsWithCS ps cs

/-- Case-insensitive substring test (JS `/pat/i.test(s)` for a literal `pat`). -/
def containsCI (p : Str) : Str → Bool
  | [] => p.isEmpty
  | c :: cs => startsWithCI p (c :: cs) || containsCI p cs

/-- Case-sensitive substring test (JS `String.prototype.includes`). -/
def containsCS (p : Str) : Str → Bool
  | [] => p.isEmpty
  | c :: cs => startsWithCS p (c :: cs) || containsCS p cs

/-- Any of the literal alternatives occurs, case-insensitively
(JS `/a|b|c/i.test(s)`). -/
def containsAnyCI (pats : List Str) (s : Str) : Bool :=
  pats.any fun p => containsCI p s

/-- Run a position-anchored matcher at every suffix: the search component
of a JS regex `.test`. -/
def scanAny (m : Str → Bool) : Str → Bool
  | [] => m []
  | c :: cs => m (c :: cs) || scanAny m cs

/-- Consume a literal pattern case-insensitively, returning the rest. -/
def eatCI (p : Str) (s : Str) : Option Str :=
  if startsWithCI p s then some (s.drop p.length) else none

/-- Consume one optional literal character (regex `c?`). -/
def eatOptCh (c : Char) (s : Str) : Str :=
  match s with
  | x :: t => if x == c then t else s
  | [] => []

/-- Drop leading whitespace (regex `\s*`, greedy). -/
def skipSpaces (s : Str) : Str := s.dropWhile isSpaceCh

/-- Consume at least one whitespace character (regex `\s+`, greedy). -/
def eatSpaces1 (s : Str) : Option Str :=
  match s with
  | c :: t => if isSpaceCh c then some (skipSpaces t) else none
  | [] => none

/-! ## Sender/content classifier (SmartSmsProcessor.ts lines 40-131) -/

/-- The literal alternatives of the fifteen `BANK_SENDER_IDS` regexes,
in source order. -/
def bankSenderTokens : List Str :=
  ["BOBSMS", "BOBTXN", "BOBMS", "HDFCBK", "HDFCBN", "SBIN", "SBIUPI",
   "SBIMPS", "ICICIB", "AXISBK", "AXIS", "KOTAK", "PNBSMS", "PNB",
   "IDFCFB", "IDFC", "YESBNK", "CANARA", "UNIONB", "MAHABK", "RBL",
   "INDZB", "CBSSMS"].map String.toList

/-- Model of `BANK_SENDER_IDS.some(regex => regex.test(sender))`. -/
def knownBankSender (sender : Str) : Bool :=
  bankSenderTokens.any fun p => containsCI p sender

/-- Anchored matcher for `/Rs\.?\s*[\d,]+/i` at the current position.
The classes `\.`, `\s` and `[\d,]` are pairwise disjoint, so the greedy
scan needs no backtracking; `[\d,]+` only needs a first character for a
boolean test. -/
def rsNumAt (s : Str) : Bool :=
  match eatCI ("Rs").toList s with
  | none => false
  | some s1 =>
    match skipSpaces (eatOptCh '.' s1) with
    | c :: _ => isDigitCh c || c == ','
    | [] => false

/-- Anchored matcher for `/INR\s*[\d,]+/i`. -/
def inrNumAt (s : Str) : Bool :=
  match eatCI ("INR").toList s with
  | none => false
  | some s1 =>
    match skipSpaces s1 with
    | c :: _ => isDigitCh c || c == ','
    | [] => false

/-- Literal alternatives of the transaction-verb indicator
`/debited|credited|spent|received|auto-?debit|auto-?pay|subscription|membership|paid|sent|transfer|withdrawn|withdraw|payment|Dr\.?|Cr\.?/i`.
`auto-?debit` expands to its two spellings; `Dr\.?` occurs somewhere iff
`Dr` does, so the optional dot is dropped. -/
def verbIndicatorTokens : List Str :=
  ["debited", "credited", "spent", "received", "auto-debit", "autodebit",
   "auto-pay", "autopay", "subscription", "membership", "paid", "sent",
   "transfer", "withdrawn", "withdraw", "payment", "dr", "cr"].map String.toList

/-- Anchored matcher for `Ref\s?No` (part of the payment-rail indicator). -/
def refNoAt (s : Str) : Bool :=
  match eatCI ("Ref").toList s with
  | none => false
  | some s1 =>
    startsWithCI ("No").toList s1 ||
      (match s1 with
       | c :: t => isSpaceCh c && startsWithCI ("No").toList t
       | [] => false)

/-- The payment-rail indicator `/UPI|IMPS|NEFT|RTGS|Ref\s?No|Reference/i`. -/
def railIndicator (s : Str) : Bool :=
  containsAnyCI (["UPI", "IMPS", "NEFT", "RTGS", "Reference"].map String.toList) s
    || scanAny refNoAt s

/-- Number of `BANK_INDICATORS` patterns matching the message
(`bankMatches` in the source). -/
def bankIndicatorHits (sms : Str) : Nat :=
  [scanAny rsNumAt sms,
   scanAny inrNumAt sms,
   containsAnyCI verbIndicatorTokens sms,
   containsAnyCI (["A/c", "account", "card", "bank", "wallet"].map String.toList) sms,
   railIndicator sms,
   containsAnyCI (["transaction", "txn"].map String.toList) sms].count true

/-- Anchored matcher for `\d{4,8}\s+is\s+your\s+OTP`: some 4-to-8-digit
block at this position followed by ` is your OTP`. -/
def otpCodeAt (s : Str) : Bool :=
  [4, 5, 6, 7, 8].any fun k =>
    (s.take k).length == k && (s.take k).all isDigitCh &&
      ((((((eatSpaces1 (s.drop k)).bind
            (eatCI ("is").toList)).bind
            eatSpaces1).bind
            (eatCI ("your").toList)).bind
            eatSpaces1).bind
            (eatCI ("OTP").toList)).isSome

/-- Anchored matcher for `OTP\s+for`. -/
def otpForAt (s : Str) : Bool :=
  (((eatCI ("OTP").toList s).bind eatSpaces1).bind (eatCI ("for").toList)).isSome

/-- Number of `SPAM_INDICATORS` patterns matching (`spamMatches`). -/
def spamHits (sms : Str) : Nat :=
  [containsAnyCI (["click here", "tap here", "http"].map String.toList) sms,
   containsAnyCI (["win", "won", "lottery", "prize"].map String.toList) sms,
   containsAnyCI (["offer expires", "limited time"].map String.toList) sms,
   containsAnyCI (["verify your", "confirm your"].map String.toList) sms,
   containsCI ("suspicious activity").toList sms,
   scanAny otpCodeAt sms || scanAny otpForAt sms].count true

/-- Matcher for the promotional-route sender check, regex `-[P]($|[A-Z])`
with the `i` flag: a `-P` (case-insensitive) followed by end of string or
a letter. -/
def promoSender : Str → Bool
  | [] => false
  | '-' :: rest =>
    (match rest with
     | p :: rest2 => (lowCh p == 'p') && (rest2.isEmpty || isLetterCh (rest2.headD ' '))
     | [] => false) || promoSender rest
  | _ :: rest => promoSender rest

/-- Result record of `validateTransactionSms`.  The source accumulates
`reasons` as strings and joins them with `"; "`; we keep the list. -/
structure SmsValidationResult where
  isValid : Bool
  isTransaction : Bool
  confidence : ℚ
  reasons : List Str
  deriving DecidableEq, Repr

/-- Model of `validateTransactionSms` (SmartSmsProcessor.ts lines 78-131). -/
def validateTransactionSms (sms sender : Str) : SmsValidationResult :=
  if promoSender sender then
    ⟨false, false, 0, [("Ignored Promotional Sender (-P)").toList]⟩
  else
    let isKnownBank := knownBankSender sender
    let conf1 : ℚ := if isKnownBank then 0 + 1/2 else 0
    let reasons1 : List Str := if isKnownBank then [("Known Bank Sender").toList] else []
    let bankMatches := bankIndicatorHits sms
    let conf2 : ℚ := if 2 ≤ bankMatches then conf1 + 1/2 else conf1
    let reasons2 : List Str :=
      if 2 ≤ bankMatches then reasons1 ++ [("Contains transaction keywords").toList] else reasons1
    if 0 < spamHits sms then
      ⟨false, false, 0, [("Contains spam keywords").toList]⟩
    else
      let threshold : ℚ := if isKnownBank then 2/5 else 4/5
      ⟨decide (threshold ≤ conf2), decide (2 ≤ bankMatches), conf2, reasons2⟩

/-! ## Calendar model

JS `Date` at UTC day granularity: a civil date, converted to and from
days-since-epoch with Howard Hinnant's algorithm (the arithmetic behind
`Date.UTC`/`toISOString`).  Out-of-range day-of-month values roll over
into the following month exactly as JS `setMonth`/`setDate` normalize
them. -/

/-- A civil (proleptic Gregorian) date, month 1-12 in canonical form. -/
structure YMD where
  year : Int
  month : Int
  day : Int
  deriving DecidableEq, Repr

/-- Days since 1970-01-01 of the civil triple (y, m, d); linear in `d`,
so a day beyond the end of the month denotes the corresponding rolled-over
date, as in JS. -/
def daysFromCivil (y m d : Int) : Int :=
  let y1 := if m ≤ 2 then y - 1 else y
  let era := Int.fdiv y1 400
  let yoe := y1 - era * 400
  let mp := if 2 < m then m - 3 else m + 9
  let doy := Int.fdiv (153 * mp + 2) 5 + d - 1
  let doe := yoe * 365 + Int.fdiv yoe 4 - Int.fdiv yoe 100 + doy
  era * 146097 + doe - 719468

/-- Civil date of a days-since-epoch count. -/
def civilFromDays (z0 : Int) : YMD :=
  let z := z0 + 719468
  let era := Int.fdiv z 146097
  let doe := z - era * 146097
  let yoe := Int.fdiv (doe - Int.fdiv doe 1460 + Int.fdiv doe 36524 - Int.fdiv doe 146096) 365
  let y := yoe + era * 400
  let doy := doe - (365 * yoe + Int.fdiv yoe 4 - Int.fdiv yoe 100)
  let mp := Int.fdiv (5 * doy + 2) 153
  let d := doy - Int.fdiv (153 * mp + 2) 5 + 1
  let m := if mp < 10 then mp + 3 else mp - 9
  ⟨if m ≤ 2 then y + 1 else y, m, d⟩

/-- Days since epoch of a date. -/
def toDays (dt : YMD) : Int := daysFromCivil dt.year dt.month dt.day

/-- Canonicalize a possibly day-overflowed triple, as JS `Date` does. -/
def normalizeYMD (y m d : Int) : YMD := civilFromDays (daysFromCivil y m d)

/-- JS `setMonth(getMonth() + k)`: add `k` months keeping the day of
month, rolling both the year and any day overflow. -/
def jsAddMonths (dt : YMD) (k : Int) : YMD :=
  let t := dt.month - 1 + k
  normalizeYMD (dt.year + Int.fdiv t 12) (Int.emod t 12 + 1) dt.day

/-- JS `setDate(getDate() + k)`. -/
def jsAddDays (dt : YMD) (k : Int) : YMD := civilFromDays (toDays dt + k)

/-- JS `setFullYear(getFullYear() + k)` (Feb 29 may roll to Mar 1). -/
def jsAddYears (dt : YMD) (k : Int) : YMD := normalizeYMD (dt.year + k) dt.month dt.day

/-- Decimal digit character. -/
def digitCh (n : Nat) : Char := Char.ofNat (48 + n % 10)

/-- Two-digit zero-padded decimal. -/
def pad2 (n : Nat) : Str := [digitCh (n / 10 % 10), digitCh n]

/-- Four-digit zero-padded decimal. -/
def pad4 (n : Nat) : Str :=
  [digitCh (n / 1000 % 10), digitCh (n / 100 % 10), digitCh (n / 10 % 10), digitCh n]

/-- Model of `toISOString().split('T')[0]` for dates in years 1..9999. -/
def isoOfYMD (dt : YMD) : Str :=
  pad4 dt.year.toNat ++ '-' :: (pad2 dt.month.toNat ++ '-' :: pad2 dt.day.toNat)

/-! ## Field extractor (ExpenseParser.ts) -/

/-- Leftmost-match search: run a position-anchored matcher at each
suffix, returning the first hit (the search component of JS
`String.prototype.match`). -/
def scanFirst (m : Str → Option α) : Str → Option α
  | [] => m []
  | c :: cs => (m (c :: cs)).orElse fun _ => scanFirst m cs

/-- First alternative of an alternation that matches as a prefix
(case-insensitively), returning the rest; JS tries alternatives in
source order. -/
def matchAltCI (alts : List Str) (s : Str) : Option Str :=
  match alts with
  | [] => none
  | a :: rest =>
    match eatCI a s with
    | some t => some t
    | none => matchAltCI rest s

/-- Model of `isValidTransaction` (ExpenseParser.ts 155-158): digits plus any of
the transaction verbs `credited|debited|paid|spent|received|withdrawn|dr\.|cr\.|transfer|sent|payment`
(case-insensitive). -/
def isValidTransaction (sms : Str) : Bool :=
  sms.any isDigitCh &&
    containsAnyCI
      (["credited", "debited", "paid", "spent", "received", "withdrawn",
        "dr.", "cr.", "transfer", "sent", "payment"].map String.toList) sms

/-- Model of `normalizeMessage` (ExpenseParser.ts 160-164): NFKC normalization,
which is the identity on the ASCII alphabet modelled here. -/
def normalizeMessage (sms : Str) : Str := sms

/-- The masked account tail `(?:[X*]+)(\d{3,4})` (case-insensitive): a
nonempty run of `X`/`*`, then the captured three-or-four-digit group;
the greedy `{3,4}` takes four digits when available.  The classes are
disjoint so no backtracking arises. -/
def maskDigitsAt (s : Str) : Option Str :=
  let mask := s.takeWhile fun c => lowCh c == 'x' || c == '*'
  if mask.isEmpty then none
  else
    let ds := (s.drop mask.length).takeWhile isDigitCh
    if 4 ≤ ds.length then some (ds.take 4)
    else if ds.length == 3 then some ds
    else none

/-- The optional junk `\s*[:\-\s]?\s*` between the account label and the
mask: once `\s*` has eaten all whitespace the optional class can only be
`:` or `-`, after which `\s*` resumes; the greedy scan is deterministic. -/
def acctSepSkip (s : Str) : Str :=
  let s1 := skipSpaces s
  match s1 with
  | c :: t => if c == ':' || c == '-' then skipSpaces t else s1
  | [] => []

/-- Anchored matcher for account pattern 1 of `ACCOUNT_PATTERNS`:
`(?:A\/c|Acct|Account)\s+(?:no\.|ending)?\s*[:\-\s]?\s*(?:[X*]+)(\d{3,4})`,
case-insensitive.  The optional `no\.|ending` alternation is consumed
greedily; not consuming it can never succeed later, since its first
letter is not an `X`/`*` mask character. -/
def acctPat1At (s : Str) : Option Str :=
  ((matchAltCI (["A/c", "Acct", "Account"].map String.toList) s).bind eatSpaces1).bind
    fun s2 =>
      let s3 := (matchAltCI (["no.", "ending"].map String.toList) s2).getD s2
      maskDigitsAt (acctSepSkip s3)

/-- Anchored matcher for account pattern 2:
`(?:Card)\s+(?:no\.|ending)?\s*[:\-\s]?\s*(?:[X*]+)(\d{3,4})`. -/
def acctPat2At (s : Str) : Option Str :=
  ((matchAltCI ([("Card").toList]) s).bind eatSpaces1).bind
    fun s2 =>
      let s3 := (matchAltCI (["no.", "ending"].map String.toList) s2).getD s2
      maskDigitsAt (acctSepSkip s3)

/-- Anchored matcher for account pattern 3:
`(?:A\/c|Acct|Card)\s+(?:[X*]+)(\d{3,4})`. -/
def acctPat3At (s : Str) : Option Str :=
  ((matchAltCI (["A/c", "Acct", "Card"].map String.toList) s).bind eatSpaces1).bind
    maskDigitsAt

/-- Model of `extractAccountInfo` (ExpenseParser.ts 96-106): try the three
`ACCOUNT_PATTERNS` in order; the first pattern that matches anywhere
supplies the captured last-4 digits. -/
def extractLast4 (sms : Str) : Option Str :=
  match scanFirst acctPat1At sms with
  | some d => some d
  | none =>
    match scanFirst acctPat2At sms with
    | some d => some d
    | none => scanFirst acctPat3At sms

/-- Digit-string value (base 10). -/
def digitsVal (ds : Str) : Nat := ds.foldl (fun a c => a * 10 + (c.toNat - 48)) 0

/-- Model of `parseFloat` on the strings produced by the amount capture after
comma-stripping: a digit run, optionally `.` and a further digit run,
read as an exact decimal (`mkRat` keeps the value exact in ℚ).  On a
capture with no digits at all (a bare comma run) JS yields NaN, a value
outside ℚ, modelled as 0; no claim exercises that corner. -/
def jsParseFloat (s : Str) : ℚ :=
  let intPart := s.takeWhile isDigitCh
  let rest := s.drop intPart.length
  match rest with
  | '.' :: t =>
    let frac := t.takeWhile isDigitCh
    mkRat (digitsVal intPart * 10 ^ frac.length + digitsVal frac) (10 ^ frac.length)
  | _ => (digitsVal intPart : ℚ)

/-- Model of `parseAmount` (ExpenseParser.ts 56-58): strip comma thousands
separators (`replace(/,/g, '')`), then `parseFloat`. -/
def parseAmount (s : Str) : ℚ := jsParseFloat (s.filter fun c => !(c == ','))

/-- Anchored matcher for the amount pattern
`(?:Rs\.?|INR)\s*([\d,]+(?:\.\d{2})?)` (case-insensitive), returning the
capture group.  `Rs` and `INR` cannot match at the same position; dot,
whitespace and digit-comma classes are disjoint, so the greedy scan is
deterministic; the optional fraction extends the capture exactly when a
dot and two digits follow the digit-comma run. -/
def amountCaptureAt (s : Str) : Option Str :=
  let afterMarker : Option Str :=
    match eatCI ("Rs").toList s with
    | some s1 => some (eatOptCh '.' s1)
    | none => eatCI ("INR").toList s
  afterMarker.bind fun s2 =>
    let s3 := skipSpaces s2
    let run := s3.takeWhile fun c => isDigitCh c || c == ','
    if run.isEmpty then none
    else
      match s3.drop run.length with
      | '.' :: d1 :: d2 :: _ =>
        if isDigitCh d1 && isDigitCh d2 then some (run ++ '.' :: [d1, d2]) else some run
      | _ => some run

/-- The leftmost amount capture, `sms.match(/(?:Rs\.?|INR)\s*([\d,]+(?:\.\d{2})?)/i)`. -/
def amountCapture (sms : Str) : Option Str := scanFirst amountCaptureAt sms

/-- Transaction direction; the source stores the strings
`'debit'`/`'credit'`. -/
inductive TxType
  | debit
  | credit
  deriving DecidableEq, Repr

/-- Word-boundary test for one lower-case word at this position, given
the preceding character: regex `\bw\b` anchored here. -/
def wordAt (w : Str) (prev : Option Char) (s : Str) : Bool :=
  (match prev with
   | none => true
   | some c => !isWordCh c) &&
  startsWithCS w s &&
  (match s.drop w.length with
   | [] => true
   | c :: _ => !isWordCh c)

/-- Search for `\bw\b` anywhere, tracking the preceding character. -/
def scanWordAux (w : Str) (prev : Option Char) : Str → Bool
  | [] => wordAt w prev []
  | c :: cs => wordAt w prev (c :: cs) || scanWordAux w (some c) cs

/-- Model of `\bw\b` occurs in the (already lower-cased) text. -/
def scanWord (w : Str) (s : Str) : Bool := scanWordAux w none s

/-- Word-boundary test for `\bw1\s+w2\b` at this position. -/
def word2At (w1 w2 : Str) (prev : Option Char) (s : Str) : Bool :=
  (match prev with
   | none => true
   | some c => !isWordCh c) &&
  (match (eatCI w1 s).bind eatSpaces1 with
   | some rest =>
     startsWithCS w2 rest &&
       (match rest.drop w2.length with
        | [] => true
        | c :: _ => !isWordCh c)
   | none => false)

/-- Search for `\bw1\s+w2\b` anywhere. -/
def scanWord2Aux (w1 w2 : Str) (prev : Option Char) : Str → Bool
  | [] => word2At w1 w2 prev []
  | c :: cs => word2At w1 w2 prev (c :: cs) || scanWord2Aux w1 w2 (some c) cs

/-- Model of `\bw1\s+w2\b` occurs in the (already lower-cased) text. -/
def scanWord2 (w1 w2 : Str) (s : Str) : Bool := scanWord2Aux w1 w2 none s

/-- The credit-verb alternation
`\b(credited|received|deposited|added\s+to|refund|inward|reversal)\b`
on the lower-cased message. -/
def creditVerbHit (lower : Str) : Bool :=
  (["credited", "received", "deposited", "refund", "inward", "reversal"].map
    String.toList).any (fun w => scanWord w lower) ||
    scanWord2 ("added").toList ("to").toList lower

/-- The debit-verb alternation
`\b(debited|spent|paid|sent|withdrawn|withdraw|transfer\s+to|purchase)\b`
on the lower-cased message. -/
def debitVerbHit (lower : Str) : Bool :=
  (["debited", "spent", "paid", "sent", "withdrawn", "withdraw", "purchase"].map
    String.toList).any (fun w => scanWord w lower) ||
    scanWord2 ("transfer").toList ("to").toList lower

/-- Model of `getTransactionType` (ExpenseParser.ts 60-83): `Dr.`/`Cr.` literal
(case-sensitive) cascade, then credit verbs, then debit verbs, then a
loose credited/deposit substring fallback, defaulting to debit. -/
def getTransactionType (sms : Str) : TxType :=
  if containsCS ("Dr.").toList sms && containsCS ("Cr.").toList sms then .debit
  else if containsCS ("Dr.").toList sms then .debit
  else if containsCS ("Cr.").toList sms then .credit
  else
    let lower := lowStr sms
    if creditVerbHit lower then .credit
    else if debitVerbHit lower then .debit
    else if containsCS ("credited").toList lower || containsCS ("deposit").toList lower then
      .credit
    else .debit

/-- Anchored matcher for the date pattern
`(\d{2})[-\/](\d{2})[-\/](\d{2,4})` returning the three captured digit
strings (day, month, year as they appear); the greedy `{2,4}` takes up
to four digits. -/
def datePatAt (s : Str) : Option (Str × Str × Str) :=
  match s with
  | a :: b :: sep1 :: rest1 =>
    if isDigitCh a && isDigitCh b && (sep1 == '-' || sep1 == '/') then
      match rest1 with
      | c :: d :: sep2 :: rest2 =>
        if isDigitCh c && isDigitCh d && (sep2 == '-' || sep2 == '/') then
          let ys := rest2.takeWhile isDigitCh
          if 2 ≤ ys.length then some ([a, b], [c, d], ys.take 4) else none
        else none
      | _ => none
    else none
  | _ => none

/-- Model of `extractDate` (ExpenseParser.ts 85-94): leftmost embedded
DD-MM-YY(YY) token reassembled as `year-MM-DD` (two-digit years get
+2000), else today's ISO date.  `today` makes the source's `new Date()`
explicit. -/
def extractDate (sms : Str) (today : YMD) : Str :=
  match scanFirst datePatAt sms with
  | some (dd, mm, yy) =>
    let yearNum := digitsVal yy
    let year := if yearNum < 100 then yearNum + 2000 else yearNum
    (Nat.repr year).toList ++ '-' :: (mm ++ '-' :: dd)
  | none => isoOfYMD today

/-- Payment-handle character class `[a-zA-Z0-9.\-_]`. -/
def isUpiCh (c : Char) : Bool := isAlnumCh c || c == '.' || c == '-' || c == '_'

/-- Anchored matcher for the payment-handle pattern
`([a-zA-Z0-9.\-_]+@[a-zA-Z]+)`: the maximal run of handle characters from
this position, `@`, then a maximal nonempty run of letters.  Shortening
the first greedy run cannot help (the next character would be a handle
character, not `@`), so the scan is deterministic. -/
def upiAt (s : Str) : Option Str :=
  let run := s.takeWhile isUpiCh
  if run.isEmpty then none
  else
    match s.drop run.length with
    | '@' :: rest =>
      let ls := rest.takeWhile isLetterCh
      if ls.isEmpty then none else some (run ++ '@' :: ls)
    | _ => none

/-- The leftmost payment-handle match,
`sms.match(/([a-zA-Z0-9.\-_]+@[a-zA-Z]+)/)`. -/
def upiSearch (sms : Str) : Option Str := scanFirst upiAt sms

/-- Terminator of the lazy merchant capture: the alternation
`(?:\s+(?:on|Ref|Avl|Bal|end|txn)|$|\.)` anchored here. -/
def merchTermAt (s : Str) : Bool :=
  (match eatSpaces1 s with
   | some rest =>
     (["on", "Ref", "Avl", "Bal", "end", "txn"].map String.toList).any fun w =>
       startsWithCI w rest
   | none => false) ||
  s.isEmpty ||
  (match s with
   | '.' :: _ => true
   | _ => false)

/-- The lazy capture `([^,.;]+?)` with its terminator: the shortest
nonempty prefix avoiding `,.;` after which the terminator matches.
Returns `none` when a forbidden character is reached first. -/
def lazyCaptureAt : Str → Option Str
  | [] => none
  | c :: cs =>
    if c == ',' || c == '.' || c == ';' then none
    else if merchTermAt cs then some [c]
    else (lazyCaptureAt cs).map fun t => c :: t

/-- Try the preposition alternatives in source order at this position:
part of the heuristic merchant pattern
`(?:to|at|via|spent on|paid to|sent to|by|from)\s+([^,.;]+?)(?:...)`.
A later alternative is tried when an earlier one fails, including
failure of the capture.  The greedy `\s+` is deterministic here: with
fewer spaces consumed the capture would merely carry the same blocked
character or reach the same terminator later. -/
def merchHeurAlts : List Str → Str → Option Str
  | [], _ => none
  | p :: ps, s =>
    match (eatCI p s).bind eatSpaces1 with
    | some rest =>
      match lazyCaptureAt rest with
      | some cap => some cap
      | none => merchHeurAlts ps s
    | none => merchHeurAlts ps s

/-- Anchored matcher for the heuristic merchant pattern. -/
def merchHeurAt (s : Str) : Option Str :=
  merchHeurAlts (["to", "at", "via", "spent on", "paid to", "sent to", "by", "from"].map
    String.toList) s

/-- Model of `COMMON_MERCHANTS` (ExpenseParser.ts 16-47) in insertion order, the
order `Object.entries` iterates. -/
def commonMerchants : List (Str × Str) :=
  [("ZOMATO", "Zomato"), ("SWIGGY", "Swiggy"), ("UBER", "Uber"),
   ("OLA", "Ola"), ("AMAZON", "Amazon"), ("FLIPKART", "Flipkart"),
   ("MYNTRA", "Myntra"), ("NETFLIX", "Netflix"), ("SPOTIFY", "Spotify"),
   ("APPLE", "Apple"), ("GOOGLE", "Google"), ("JIO", "Jio"),
   ("AIRTEL", "Airtel"), ("VI", "Vi"), ("PAYTM", "Paytm"),
   ("PHONEPE", "PhonePe"), ("RAZORPAY", "Razorpay"), ("DMART", "DMart"),
   ("STARBUCKS", "Starbucks"), ("MCDONALDS", "McDonalds"), ("KFC", "KFC"),
   ("DOMINOS", "Dominos"), ("PIZZA", "Pizza Hut"), ("IRCTC", "IRCTC"),
   ("INDIGO", "IndiGo"), ("AIRINDIA", "Air India"), ("DTH", "DTH Recharge"),
   ("BESCOM", "Electricity Bill"), ("BWSSB", "Water Bill"),
   ("ACT", "ACT Fibernet")].map fun p => (p.1.toList, p.2.toList)

/-- The knowledge-base fast path: the first entry whose key occurs in
the upper-cased name (`name.toUpperCase().includes(key)`). -/
def kbLookup (name : Str) : Option Str :=
  (commonMerchants.find? fun p => containsCS p.1 (upStr name)).map (·.2)

/-- JS `String.prototype.trim`. -/
def jsTrim (s : Str) : Str :=
  ((s.dropWhile isSpaceCh).reverse.dropWhile isSpaceCh).reverse

/-- The anchored strip `replace(/^(VPS|IPS|REV|UPI|IMPS|NEFT|RTGS)[\/ -]?/i, '')`
(the optional class is slash or hyphen): if one of the alternatives, in
order, is a prefix, remove it and one optional following separator. -/
def stripRoutingTag (s : Str) : Str :=
  match matchAltCI (["VPS", "IPS", "REV", "UPI", "IMPS", "NEFT", "RTGS"].map
    String.toList) s with
  | some rest =>
    (match rest with
     | c :: t => if c == '/' || c == '-' then t else rest
     | [] => [])
  | none => s

/-- Model of `replace(/\d{6,}/, '')` (no global flag): delete the leftmost run of
six or more digits; the greedy quantifier consumes the whole run. -/
def removeLongDigits : Str → Str
  | [] => []
  | c :: cs =>
    let run := (c :: cs).takeWhile isDigitCh
    if 6 ≤ run.length then (c :: cs).drop run.length
    else c :: removeLongDigits cs

/-- Model of `replace(/[\/ -]/g, ' ')` where the class is slash or hyphen. -/
def slashDashToSpace (s : Str) : Str :=
  s.map fun c => if c == '/' || c == '-' then ' ' else c

/-- Helper for `collapseSpaces`; the flag records whether the previous
character was whitespace. -/
def collapseSpacesAux : Bool → Str → Str
  | _, [] => []
  | prevSpace, c :: cs =>
    if isSpaceCh c then
      if prevSpace then collapseSpacesAux true cs else ' ' :: collapseSpacesAux true cs
    else c :: collapseSpacesAux false cs

/-- Model of `replace(/\s+/g, ' ')`: each maximal whitespace run becomes one space. -/
def collapseSpaces (s : Str) : Str := collapseSpacesAux false s

/-- Helper for `splitOnSpace`. -/
def splitOnSpaceAux : Str → Str → List Str
  | [], acc => [acc.reverse]
  | c :: cs, acc =>
    if c == ' ' then acc.reverse :: splitOnSpaceAux cs []
    else splitOnSpaceAux cs (c :: acc)

/-- JS `split(' ')` (single-character separator, keeping empty pieces). -/
def splitOnSpace (s : Str) : List Str := splitOnSpaceAux s []

/-- Model of `word.charAt(0).toUpperCase() + word.slice(1).toLowerCase()`. -/
def capitalizeWord : Str → Str
  | [] => []
  | c :: cs => upCh c :: lowStr cs

/-- The anchored sanity pattern `^On \d{4}` (case-sensitive). -/
def onYearStart (s : Str) : Bool :=
  match s with
  | 'O' :: 'n' :: ' ' :: rest => ((rest.take 4).length == 4) && (rest.take 4).all isDigitCh
  | _ => false

/-- Model of `cleanMerchantName` (ExpenseParser.ts 111-148): payment handles
(contain `@`, no space) are preserved verbatim; else the knowledge base
is consulted; else routing prefixes and long ids are stripped, the
words title-cased, and over-long or date-like results replaced by
`Unknown Merchant`. -/
def cleanMerchantName (raw : Str) : Str :=
  let name := jsTrim raw
  if name.contains '@' && !(name.contains ' ') then name
  else
    match kbLookup name with
    | some disp => disp
    | none =>
      let n := jsTrim (collapseSpaces (slashDashToSpace (removeLongDigits
        (stripRoutingTag name))))
      let cleaned := List.intercalate ([' ']) ((splitOnSpace n).map capitalizeWord)
      if 30 < cleaned.length || onYearStart cleaned then ("Unknown Merchant").toList
      else cleaned

/-- A parsed expense record (`ParsedExpense`, ExpenseParser.ts 3-10). -/
structure ParsedExpense where
  amount : ℚ
  merchant : Str
  type : TxType
  date : Str
  accountLast4 : Option Str
  deriving DecidableEq, Repr

/-- Model of `parseExpenseWithRegex` (ExpenseParser.ts 166-216).  `today` makes
the ambient clock explicit; `smsTimestamp` is the optional
epoch-milliseconds argument, whose UTC calendar day
(`new Date(ts).toISOString().split('T')[0]`) is `ts` floor-divided by
86400000 days after the epoch. -/
def parseExpenseWithRegex (rawSms : Str) (isKnownBank : Bool) (smsTimestamp : Option Int)
    (today : YMD) : Option ParsedExpense :=
  let sms := normalizeMessage rawSms
  if !isValidTransaction sms then none
  else
    let last4 := extractLast4 sms
    if last4.isNone && !isKnownBank then none
    else
      match amountCapture sms with
      | none => none
      | some cap =>
        let amount := parseAmount cap
        let type := getTransactionType sms
        let fallback := (scanFirst merchHeurAt sms).getD (("General Expense").toList)
        let merchant1 :=
          match upiSearch sms with
          | some u => if containsCS (".com").toList u then fallback else u
          | none => fallback
        let merchant2 := cleanMerchantName merchant1
        let merchant := if merchant2.isEmpty then ("General Expense").toList else merchant2
        let dateStr :=
          match smsTimestamp with
          | some ts => isoOfYMD (civilFromDays (Int.fdiv ts 86400000))
          | none => extractDate sms today
        some ⟨amount, merchant, type, dateStr, last4⟩

/-- Model of `parseExpense` (ExpenseParser.ts 218-221) delegates to the regex
extractor. -/
def parseExpense (sms : Str) (isKnownBank : Bool) (smsTimestamp : Option Int)
    (today : YMD) : Option ParsedExpense :=
  parseExpenseWithRegex sms isKnownBank smsTimestamp today

/-! ## Persistent store (database.ts) -/

/-- A row of the `transactions` table. -/
structure TxRow where
  id : Nat
  amount : ℚ
  type : TxType
  merchant : Str
  categoryId : Option Nat
  accountId : Option Nat
  userId : Nat
  date : Str
  rawSms : Option Str
  notes : Option Str
  originalMerchant : Option Str
  deriving DecidableEq, Repr

/-- A row of the `merchant_mapping` table. -/
structure MappingRow where
  id : Nat
  smsName : Str
  displayName : Str
  categoryId : Option Nat
  userId : Nat
  deriving DecidableEq, Repr

/-- A row of the `accounts` table (the fields the pipeline touches). -/
structure AccountRow where
  id : Nat
  name : Str
  bankName : Str
  last4 : Str
  type : Str
  userId : Nat
  deriving DecidableEq, Repr

/-- A row of the `categories` table (the fields the pipeline reads). -/
structure CategoryRow where
  id : Nat
  name : Str
  userId : Nat
  deriving DecidableEq, Repr

/-- The SQLite database: table contents in rowid order plus the next
autoincrement ids. -/
structure Store where
  transactions : List TxRow
  mappings : List MappingRow
  accounts : List AccountRow
  categories : List CategoryRow
  nextTxId : Nat
  nextMappingId : Nat
  nextAccountId : Nat
  deriving DecidableEq, Repr

/-- The argument record of `insertTransaction`
(`Omit<Transaction, 'id' | 'createdAt'>`).  The TypeScript `Transaction`
interface declares no `originalMerchant` field, yet the database layer
binds `transaction.originalMerchant` into its INSERT; a caller that does
not supply the property binds undefined, stored as NULL (`none`). -/
structure TxInput where
  amount : ℚ
  type : TxType
  merchant : Str
  categoryId : Option Nat
  accountId : Option Nat
  userId : Nat
  date : Str
  rawSms : Option Str
  notes : Option Str
  originalMerchant : Option Str
  deriving DecidableEq, Repr

/-- The duplicate-check SELECT of `insertTransaction`: the first row (in
rowid order) with equal user, amount, date, type and merchant — all
compared exactly, the strings under SQLite's default binary collation. -/
def findDuplicate (s : Store) (t : TxInput) : Option Nat :=
  (s.transactions.find? fun r =>
    r.userId == t.userId && decide (r.amount = t.amount) && r.date == t.date &&
      r.type == t.type && r.merchant == t.merchant).map (·.id)

/-- The row an insert creates from its input. -/
def rowOfInput (t : TxInput) (id : Nat) : TxRow :=
  ⟨id, t.amount, t.type, t.merchant, t.categoryId, t.accountId, t.userId,
   t.date, t.rawSms, t.notes, t.originalMerchant⟩

/-- Model of `insertTransaction` (database.ts 637-685): with `checkDuplicates`
set, an existing duplicate row's id is returned and nothing is inserted;
otherwise a new row is appended and its fresh id returned. -/
def insertTransaction (s : Store) (t : TxInput) (checkDuplicates : Bool) : Nat × Store :=
  match (if checkDuplicates then findDuplicate s t else none) with
  | some rid => (rid, s)
  | none =>
    (s.nextTxId,
     { s with
        transactions := s.transactions ++ [rowOfInput t s.nextTxId],
        nextTxId := s.nextTxId + 1 })

/-- Model of `getMerchantMapping` (database.ts): the first mapping row with
`UPPER(sms_name) = UPPER(?)` and the given owner. -/
def getMerchantMapping (s : Store) (smsName : Str) (userId : Nat) : Option MappingRow :=
  s.mappings.find? fun m => upStr m.smsName == upStr smsName && m.userId == userId

/-- Model of `insertMerchantMapping` (database.ts). -/
def insertMerchantMapping (s : Store) (smsName displayName : Str) (categoryId : Option Nat)
    (userId : Nat) : Nat × Store :=
  (s.nextMappingId,
   { s with
      mappings := s.mappings ++ [⟨s.nextMappingId, smsName, displayName, categoryId, userId⟩],
      nextMappingId := s.nextMappingId + 1 })

/-- Model of `updateAllTransactionsForMerchant` (SmartSmsProcessor.ts 190-200):
`UPDATE transactions SET merchant = ?, category_id = ? WHERE UPPER(merchant) = UPPER(?)`.
The SQL carries no `user_id` condition: matching rows of every owner are
rewritten. -/
def updateAllTransactionsForMerchant (s : Store) (rawName displayName : Str)
    (categoryId : Option Nat) : Store :=
  { s with
     transactions := s.transactions.map fun r =>
       if upStr r.merchant == upStr rawName then
         { r with merchant := displayName, categoryId := categoryId }
       else r }

/-- Model of `saveMerchantName` (SmartSmsProcessor.ts 153-185): upsert the
mapping for (rawName, user) — update that row in place when present,
else insert a new row keyed by the upper-cased raw name — then
batch-rewrite matching transactions. -/
def saveMerchantName (s : Store) (rawName displayName : Str) (categoryId : Option Nat)
    (userId : Nat) : Store :=
  let s1 :=
    match getMerchantMapping s rawName userId with
    | some existing =>
      { s with
         mappings := s.mappings.map fun m =>
           if m.id == existing.id then
             { m with displayName := displayName, categoryId := categoryId }
           else m }
    | none => (insertMerchantMapping s (upStr rawName) displayName categoryId userId).2
  updateAllTransactionsForMerchant s1 rawName displayName categoryId

/-- Keys in order of first appearance (the group order a scan produces). -/
def firstOccur : List Str → List Str
  | [] => []
  | k :: ks => k :: (firstOccur ks).filter fun x => !(x == k)

/-- Insert into a list kept in descending order of the measure `f`,
before the first strictly smaller element (stable for ties). -/
def insertDescBy (f : α → Nat) (e : α) : List α → List α
  | [] => [e]
  | x :: xs => if f x < f e then e :: x :: xs else x :: insertDescBy f e xs

/-- Stable insertion sort, descending by the measure `f` (the model of
`ORDER BY ... DESC`; SQLite leaves tie order unspecified). -/
def sortDescBy (f : α → Nat) (l : List α) : List α := l.foldr (insertDescBy f) []

/-- Maximum of a nonempty list of rationals (`MAX(...)`). -/
def maxQ : List ℚ → ℚ
  | [] => 0
  | a :: as => as.foldl max a

/-- One result row of `getUnnamedMerchants`. -/
structure UnnamedMerchant where
  rawName : Str
  count : Nat
  lastAmount : ℚ
  deriving DecidableEq, Repr

/-- The rows the unnamed-merchant query ranges over: the owner's
transactions with no mapping owned by the same user
(`LEFT JOIN ... ON UPPER(t.merchant) = UPPER(m.sms_name) AND m.user_id = ?
WHERE m.id IS NULL AND t.user_id = ?`). -/
def unnamedRows (s : Store) (userId : Nat) : List TxRow :=
  s.transactions.filter fun r =>
    r.userId == userId && (getMerchantMapping s r.merchant userId).isNone

/-- The group's `MAX(t.amount)`. -/
def groupMaxAmount (g : List TxRow) : ℚ := maxQ (g.map (·.amount))

/-- The bare `t.merchant` column of the grouped query: with two
aggregates present SQLite leaves bare columns unspecified (some row of
the group); the model picks the first row attaining the maximum.  The
claims never depend on which spelling of the case-insensitive label is
reported. -/
def groupBareName (g : List TxRow) : Str :=
  match g.find? fun r => decide (r.amount = groupMaxAmount g) with
  | some r => r.merchant
  | none => []

/-- Model of `getUnnamedMerchants` (SmartSmsProcessor.ts 468-492): group the
owner's unmapped transactions by `UPPER(merchant)`; emit per group the
bare merchant text, `COUNT(*)`, and `MAX(t.amount)` under the alias
`last_amount`; order by count descending, with no LIMIT. -/
def getUnnamedMerchants (s : Store) (userId : Nat) : List UnnamedMerchant :=
  let rows := unnamedRows s userId
  let keys := firstOccur (rows.map fun r => upStr r.merchant)
  let entries := keys.map fun k =>
    let g := rows.filter fun r => upStr r.merchant == k
    UnnamedMerchant.mk (groupBareName g) g.length (groupMaxAmount g)
  sortDescBy (·.count) entries

/-! ## Subscription detector (subscription service in SmartSmsProcessor.ts) -/

/-- Subscription cadence; the source stores the strings
`'weekly' | 'monthly' | 'yearly'`. -/
inductive Frequency
  | weekly
  | monthly
  | yearly
  deriving DecidableEq, Repr

/-- Model of `new Date` on the canonical `YYYY-MM-DD` strings the pipeline
stores. -/
def ymdOfIso (s : Str) : YMD :=
  ⟨digitsVal (s.take 4), digitsVal ((s.drop 5).take 2), digitsVal ((s.drop 8).take 2)⟩

/-- Model of `calculateNextDate` (lines 745-761): advance the last occurrence by
seven days, one calendar month (`setMonth(getMonth() + 1)`), or one
year, and render the ISO date. -/
def calculateNextDate (lastDate : YMD) (freq : Frequency) : Str :=
  match freq with
  | .weekly => isoOfYMD (jsAddDays lastDate 7)
  | .monthly => isoOfYMD (jsAddMonths lastDate 1)
  | .yearly => isoOfYMD (jsAddYears lastDate 1)

/-- The consecutive absolute day differences of the occurrence dates
(`Math.abs((d2 - d1) / 86400000)`, exact for day-granularity dates). -/
def intervalsOf (dates : List YMD) : List ℚ :=
  (dates.zip dates.tail).map fun p => |((toDays p.2 - toDays p.1 : Int) : ℚ)|

/-- The heuristic's result before packaging. -/
structure PatternInfo where
  amount : ℚ
  frequency : Frequency
  confidence : ℚ
  nextDate : Str
  deriving DecidableEq, Repr

/-- Model of `detectPatternHeuristic` (lines 691-740).  The 5%-variance test is
`Math.abs(a - avg) / avg < 0.05`; when `avg = 0` the JS quotient is NaN
and every comparison is false, so the group is rejected — the explicit
`avg ≠ 0` conjunct reproduces that (in ℚ a zero divisor would yield 0).
Frequency bands and the 0.6 confidence floor are as in the source. -/
def detectPatternHeuristic (amounts : List ℚ) (dates : List YMD) : Option PatternInfo :=
  if amounts.length < 2 then none
  else
    let avgAmount := amounts.sum / amounts.length
    let amountVariance :=
      decide (avgAmount ≠ 0) &&
        amounts.all fun a => decide (|a - avgAmount| / avgAmount < 1/20)
    if !amountVariance then none
    else
      let intervals := intervalsOf dates
      let avgInterval : ℚ := intervals.sum / intervals.length
      let freqConf : Option (Frequency × ℚ) :=
        if 5 ≤ avgInterval ∧ avgInterval ≤ 9 then
          some (.weekly, 1 - |avgInterval - 7| / 7)
        else if 25 ≤ avgInterval ∧ avgInterval ≤ 35 then
          some (.monthly, 1 - |avgInterval - 30| / 30)
        else if 350 ≤ avgInterval ∧ avgInterval ≤ 380 then
          some (.yearly, 1 - |avgInterval - 365| / 365)
        else none
      freqConf.bind fun fc =>
        if fc.2 < 3/5 then none
        else
          some ⟨avgAmount, fc.1, fc.2,
            calculateNextDate ((dates.getLast?).getD ⟨0, 1, 1⟩) fc.1⟩

/-- One detected subscription. -/
structure DetectedSubscription where
  merchant : Str
  amount : ℚ
  frequency : Frequency
  confidence : ℚ
  nextExpectedDate : Str
  transactions : List Nat
  deriving DecidableEq, Repr

/-- The grouping key `COALESCE(original_merchant, merchant)`. -/
def subKey (r : TxRow) : Str := r.originalMerchant.getD r.merchant

/-- The grouped query of `detectSubscriptions` (lines 640-686): the owner's debit rows of
the last six months (`date >= startDate` with `startDate` today minus
six calendar months; SQLite compares the ISO strings, which for the
canonical dates handled here coincides with day-number order), grouped
by `COALESCE(original_merchant, merchant)` in first-appearance order;
groups need `COUNT(*) >= 2` and are ordered by descending count (ties
unspecified in SQLite). -/
def subGroups (s : Store) (userId : Nat) (today : YMD) : List (Str × List TxRow) :=
  let startD := jsAddMonths today (-6)
  let rows := s.transactions.filter fun r =>
    r.type == TxType.debit && r.userId == userId &&
      decide (toDays startD ≤ toDays (ymdOfIso r.date))
  let keys := firstOccur (rows.map subKey)
  sortDescBy (fun g => g.2.length)
    ((keys.map fun k => (k, rows.filter fun r => subKey r == k)).filter
      fun g => 2 ≤ g.2.length)

/-- The per-group emission step of `detectSubscriptions`. -/
def detectSubscriptions (s : Store) (userId : Nat) (today : YMD) :
    List DetectedSubscription :=
  (subGroups s userId today).filterMap fun g =>
    (detectPatternHeuristic (g.2.map (·.amount)) (g.2.map fun r => ymdOfIso r.date)).map
      fun p => ⟨g.1, p.amount, p.frequency, p.confidence, p.nextDate, g.2.map (·.id)⟩

/-! ## Smart SMS pipeline (SmartSmsProcessor.ts) -/

/-- Helper for `splitSepRuns`; the flag records whether the previous
character belonged to a separator run. -/
def splitSepRunsAux : Bool → Str → Str → List Str
  | _, [], acc => [acc.reverse]
  | inSep, c :: cs, acc =>
    if isSpaceCh c || c == '_' || c == '-' then
      if inSep then splitSepRunsAux true cs acc
      else acc.reverse :: splitSepRunsAux true cs []
    else splitSepRunsAux false cs (c :: acc)

/-- JS `split(/[\s_-]+/)`: pieces between maximal separator runs,
keeping empty edge pieces. -/
def splitSepRuns (s : Str) : List Str := splitSepRunsAux false s []

/-- Model of `getSuggestedName` (SmartSmsProcessor.ts 220-228):
`replace(/[^\w\s]/g, '')`, split on separator runs, title-case each
word, join with spaces, trim. -/
def getSuggestedName (rawName : Str) : Str :=
  let kept := rawName.filter fun c => isWordCh c || isSpaceCh c
  jsTrim (List.intercalate ([' ']) ((splitSepRuns kept).map capitalizeWord))

/-- Bytewise string order (SQLite BINARY collation, `ORDER BY name`). -/
def strLe : Str → Str → Bool
  | [], _ => true
  | _ :: _, [] => false
  | a :: as, b :: bs => if a == b then strLe as bs else decide (a.toNat < b.toNat)

/-- Insert into a list of category rows kept ascending by name. -/
def insertCatByName (e : CategoryRow) : List CategoryRow → List CategoryRow
  | [] => [e]
  | x :: xs => if strLe e.name x.name then e :: x :: xs else x :: insertCatByName e xs

/-- Model of `getCategories` (database.ts) for a logged-in user: the user's own
rows (defaults are copied at onboarding, not queried), `ORDER BY name
ASC` (ties unspecified in SQLite). -/
def getCategories (s : Store) (userId : Nat) : List CategoryRow :=
  (s.categories.filter fun c => c.userId == userId).foldr insertCatByName []

/-- Model of `categoryKeywords` (ExpenseParser.ts 241-251), in source order. -/
def categoryKeywords : List (Str × List Str) :=
  [(("Food & Dining").toList,
    ["zomato", "swiggy", "dominos", "pizza", "restaurant", "kfc", "burger",
     "cafe", "coffee", "bakery", "hotel"].map String.toList),
   (("Transportation").toList,
    ["uber", "ola", "rapido", "petrol", "fuel", "shell", "hpcl", "bpcl",
     "metro", "cab", "auto", "parking"].map String.toList),
   (("Shopping").toList,
    ["amazon", "flipkart", "myntra", "shop", "decathlon", "nike", "adidas",
     "mall", "mart", "retail", "clothing", "fashion"].map String.toList),
   (("Groceries").toList,
    ["bigbasket", "blinkit", "zepto", "dmart", "fresh", "vegetable", "fruit",
     "dairy", "milk", "grocery", "supermarket"].map String.toList),
   (("Entertainment").toList,
    ["netflix", "spotify", "hotstar", "prime", "youtube", "cinema",
     "bookmyshow", "multiplex", "game", "subscription"].map String.toList),
   (("Bills & Utilities").toList,
    ["bescom", "bwssb", "electricity", "water", "gas", "bill", "act", "jio",
     "airtel", "vi", "vodafone", "bsnl", "recharge", "broadband",
     "mobile"].map String.toList),
   (("Medical").toList,
    ["pharmacy", "hospital", "clinic", "medplus", "apollo", "doctor",
     "health", "medical"].map String.toList),
   (("Travel").toList,
    ["irctc", "flight", "booking", "makemytrip", "hotel", "train",
     "bus"].map String.toList),
   (("Other").toList,
    ["atm", "withdrawal", "transfer", "upi", "general", "misc"].map
      String.toList)]

/-- Model of `autoCategorizeMerchant` (ExpenseParser.ts 234-267): first keyword
table entry that both hits the lower-cased merchant and names one of the
user's categories (case-insensitively); else the `Other` category when
the merchant mentions `upi`; else none. -/
def autoCategorizeMerchant (s : Store) (merchantName : Str) (userId : Nat) : Option Nat :=
  let categories := getCategories s userId
  let lowerMerchant := lowStr merchantName
  let hit := categoryKeywords.findSome? fun ck =>
    if ck.2.any fun kw => containsCS kw lowerMerchant then
      (categories.find? fun c => lowStr c.name == lowStr ck.1).map (·.id)
    else none
  match hit with
  | some id => some id
  | none =>
    if containsCS ("upi").toList lowerMerchant then
      (categories.find? fun c => c.name == ("Other").toList).map (·.id)
    else none

/-- Strip the two-letter routing header `^[A-Z]{2}-` from the sender
(case-sensitive, as in the source). -/
def bankNameOf (sender : Str) : Str :=
  match sender with
  | a :: b :: '-' :: rest => if isUpperCh a && isUpperCh b then rest else sender
  | _ => sender

/-- Model of `resolveAccountId` (SmartSmsProcessor.ts 391-463), sequential happy
path (the uniqueness-race catch cannot fire in a single-threaded model):
reuse the first matching account, else create one — generic (`XXXX`
sentinel, `<bank> Main Account`) without last-4 digits, specific
(`<bank> debit - <last4> `, with the source's trailing space) with
them. -/
def resolveAccountId (s : Store) (last4 : Option Str) (sender : Str) (userId : Nat) :
    Option Nat × Store :=
  let bankName := bankNameOf sender
  match last4 with
  | none =>
    match s.accounts.find? fun a => a.bankName == bankName && a.userId == userId with
    | some a => (some a.id, s)
    | none =>
      (some s.nextAccountId,
       { s with
          accounts := s.accounts ++
            [⟨s.nextAccountId, bankName ++ (" Main Account").toList, bankName,
              ("XXXX").toList, ("debit").toList, userId⟩],
          nextAccountId := s.nextAccountId + 1 })
  | some l4 =>
    match s.accounts.find? fun a =>
      a.bankName == bankName && a.last4 == l4 && a.userId == userId with
    | some a => (some a.id, s)
    | none =>
      (some s.nextAccountId,
       { s with
          accounts := s.accounts ++
            [⟨s.nextAccountId, bankName ++ ' ' :: (("debit - ").toList ++ l4 ++ [' ']),
              bankName, l4, ("debit").toList, userId⟩],
          nextAccountId := s.nextAccountId + 1 })

/-- The `UnknownMerchant` payload handed to the naming UI. -/
structure UnknownMerchant where
  rawName : Str
  suggestedName : Str
  amount : ℚ
  transactionId : Nat
  categoryId : Option Nat
  deriving DecidableEq, Repr

/-- The result object of `processSmartSms` (error text abbreviated to
its fixed leading words; the interpolated reason suffix is dropped). -/
structure ProcessResult where
  success : Bool
  transactionId : Option Nat
  needsNaming : Option Bool
  merchant : Option UnknownMerchant
  error : Option Str
  deriving DecidableEq, Repr

/-- Model of `processSmartSms` (SmartSmsProcessor.ts 238-383), with the owner
resolved (the AsyncStorage fallback is environment) and the clock
explicit.  The transaction record is built exactly as in the source's
object literal, which carries no `originalMerchant` property: that
column is bound to undefined and stored as NULL (`none`). -/
def processSmartSms (s : Store) (sms sender : Str) (userId : Nat)
    (smsTimestamp : Option Int) (today : YMD) : ProcessResult × Store :=
  let validation := validateTransactionSms sms sender
  if !validation.isValid then
    (⟨false, none, none, none, some (("Not a valid transaction").toList)⟩, s)
  else if !validation.isTransaction then
    (⟨false, none, none, none, some (("Not a transaction SMS").toList)⟩, s)
  else
    let isKnownBankSender := knownBankSender sender
    match parseExpense sms isKnownBankSender smsTimestamp today with
    | none =>
      (⟨false, none, none, none, some (("Could not parse transaction details").toList)⟩, s)
    | some parsed =>
      let mapping := getMerchantMapping s parsed.merchant userId
      let known := mapping.isSome
      let displayName :=
        match mapping with
        | some m => m.displayName
        | none => getSuggestedName parsed.merchant
      let categoryId :=
        match mapping with
        | some m => m.categoryId
        | none => autoCategorizeMerchant s parsed.merchant userId
      let acc := resolveAccountId s parsed.accountLast4 sender userId
      let ins := insertTransaction acc.2
        ⟨parsed.amount, parsed.type, displayName, categoryId, acc.1, userId,
         parsed.date, some sms, none, none⟩ true
      if known then (⟨true, some ins.1, some false, none, none⟩, ins.2)
      else
        (⟨true, some ins.1, some true,
          some ⟨parsed.merchant, displayName, parsed.amount, ins.1, categoryId⟩,
          none⟩, ins.2)

/-- Model of `processSmartSms` with the classifier verdict replaced by its
decidable closed form (see the classifier evaluation lemmas); proved
equal to `processSmartSms` below and used to run the pipeline on
concrete inputs. -/
def processSmartSmsD (s : Store) (sms sender : Str) (userId : Nat)
    (smsTimestamp : Option Int) (today : YMD) : ProcessResult × Store :=
  if !(!promoSender sender && decide (spamHits sms = 0) && knownBankSender sender) then
    (⟨false, none, none, none, some (("Not a valid transaction").toList)⟩, s)
  else if !(!promoSender sender && decide (spamHits sms = 0) &&
      decide (2 ≤ bankIndicatorHits sms)) then
    (⟨false, none, none, none, some (("Not a transaction SMS").toList)⟩, s)
  else
    let isKnownBankSender := knownBankSender sender
    match parseExpense sms isKnownBankSender smsTimestamp today with
    | none =>
      (⟨false, none, none, none, some (("Could not parse transaction details").toList)⟩, s)
    | some parsed =>
      let mapping := getMerchantMapping s parsed.merchant userId
      let known := mapping.isSome
      let displayName :=
        match mapping with
        | some m => m.displayName
        | none => getSuggestedName parsed.merchant
      let categoryId :=
        match mapping with
        | some m => m.categoryId
        | none => autoCategorizeMerchant s parsed.merchant userId
      let acc := resolveAccountId s parsed.accountLast4 sender userId
      let ins := insertTransaction acc.2
        ⟨parsed.amount, parsed.type, displayName, categoryId, acc.1, userId,
         parsed.date, some sms, none, none⟩ true
      if known then (⟨true, some ins.1, some false, none, none⟩, ins.2)
      else
        (⟨true, some ins.1, some true,
          some ⟨parsed.merchant, displayName, parsed.amount, ins.1, categoryId⟩,
          none⟩, ins.2)

/-! ## Theorems -/

/-- Evaluation lemma: the classifier's verdict with the rational
arithmetic on confidences evaluated away.  A non-promotional, non-spam
message is accepted exactly when the sender is on the bank allow-list:
a known bank's confidence (0.5 or 1) always meets its 0.4 threshold,
while an unknown sender's confidence (0 or 0.5) never reaches its 0.8
threshold. -/
theorem validateTransactionSms_isValid_eval (sms sender : Str) :
    (validateTransactionSms sms sender).isValid =
      (!promoSender sender && decide (spamHits sms = 0) && knownBankSender sender) := by
  unfold validateTransactionSms
  by_cases hp : promoSender sender <;>
    by_cases hk : knownBankSender sender <;>
      by_cases hb : 2 ≤ bankIndicatorHits sms <;>
        by_cases hs : 0 < spamHits sms
  all_goals try simp [hp, hk, hb, hs]
  all_goals try norm_num
  all_goals omega

/-- Evaluation lemma for the classifier's confidence score. -/
theorem validateTransactionSms_confidence_eval (sms sender : Str) :
    (validateTransactionSms sms sender).confidence =
      if promoSender sender then 0
      else if 0 < spamHits sms then 0
      else if knownBankSender sender then
        (if 2 ≤ bankIndicatorHits sms then 1 else 1/2)
      else
        (if 2 ≤ bankIndicatorHits sms then 1/2 else 0) := by
  unfold validateTransactionSms
  by_cases hp : promoSender sender <;>
    by_cases hk : knownBankSender sender <;>
      by_cases hb : 2 ≤ bankIndicatorHits sms <;>
        by_cases hs : 0 < spamHits sms
  all_goals try simp [hp, hk, hb, hs]
  all_goals try norm_num

/-- Evaluation lemma for the classifier's transaction flag. -/
theorem validateTransactionSms_isTransaction_eval (sms sender : Str) :
    (validateTransactionSms sms sender).isTransaction =
      (!promoSender sender && decide (spamHits sms = 0) &&
        decide (2 ≤ bankIndicatorHits sms)) := by
  unfold validateTransactionSms
  by_cases hp : promoSender sender <;>
    by_cases hb : 2 ≤ bankIndicatorHits sms <;>
      by_cases hs : 0 < spamHits sms
  all_goals try simp [hp, hb, hs]
  all_goals omega

example : bankIndicatorHits ("hello txn").toList = 1 := by decide

example : (validateTransactionSms ("hello txn").toList ("JX-HDFCBK").toList).isValid = true := by
  rw [validateTransactionSms_isValid_eval]; decide

example : (validateTransactionSms ("hello txn").toList ("VM-XYZ").toList).isValid = false := by
  rw [validateTransactionSms_isValid_eval]; decide

example : promoSender ("AM-ICICIB-P").toList = true := by decide

example :
    (validateTransactionSms ("Rs 500 debited from A/c XX1234").toList
      ("AD-HDFCBK").toList).confidence = 1 := by
  rw [validateTransactionSms_confidence_eval]
  rw [if_neg (by decide), if_neg (by decide), if_pos (by decide), if_pos (by decide)]

example : daysFromCivil 1970 1 1 = 0 := by decide

example : civilFromDays 20000 = ⟨2024, 10, 4⟩ := by decide

example : daysFromCivil 2024 3 1 - daysFromCivil 2024 1 30 = 31 := by decide

example : jsAddMonths ⟨2024, 1, 31⟩ 1 = ⟨2024, 3, 2⟩ := by decide

example : jsAddMonths ⟨2024, 3, 1⟩ 1 = ⟨2024, 4, 1⟩ := by decide

example : jsAddMonths ⟨2024, 3, 15⟩ (-6) = ⟨2023, 9, 15⟩ := by decide

example : isoOfYMD ⟨2024, 4, 1⟩ = ("2024-04-01").toList := by decide

example : amountCapture ("Rs 500.5 debited from A/c XX1234").toList = some (("500").toList) := by
  decide

example : amountCapture ("Rs. 1,234.50 debited").toList = some (("1,234.50").toList) := by
  decide

example : parseAmount ("500").toList = 500 := by decide

example : extractLast4 ("Rs 500 debited from A/c XX1234 to x").toList = some (("1234").toList) := by
  decide

example : extractLast4 ("Card no. **4321 spent").toList = some (("4321").toList) := by decide

example : extractLast4 ("no account anchor here").toList = none := by decide

example : getTransactionType ("Rs 500 debited from A/c").toList = .debit := by decide

example : getTransactionType ("payment received INR 20").toList = .credit := by decide

example : getTransactionType ("Amt Dr. to you, Cr. to them").toList = .debit := by decide

example : extractDate ("spent on 05-01-24 ok").toList ⟨2025, 1, 1⟩ = ("2024-01-05").toList := by
  decide

example : extractDate ("no date").toList ⟨2025, 1, 1⟩ = ("2025-01-01").toList := by decide

example : upiSearch ("pay 8007320919@ybl now").toList = some (("8007320919@ybl").toList) := by
  decide

example :
    scanFirst merchHeurAt ("Rs 99 paid to JOHN DOE on 05-01-24").toList =
      some (("JOHN DOE").toList) := by decide

example : cleanMerchantName ("8007320919@ybl").toList = ("8007320919@ybl").toList := by decide

example : cleanMerchantName ("UPI-ZOMATO-123").toList = ("Zomato").toList := by decide

example : cleanMerchantName ("IMPS/JOHN DOE").toList = ("John Doe").toList := by decide

example :
    parseExpenseWithRegex ("Rs 500 debited from A/c XX1234 to 8007320919@ybl").toList
      true none ⟨2024, 5, 15⟩ =
      some ⟨500, ("8007320919@ybl").toList, .debit, ("2024-05-15").toList,
        some (("1234").toList)⟩ := by decide

example :
    (parseExpenseWithRegex ("Rs 500.5 debited from A/c XX1234").toList
      true none ⟨2024, 5, 15⟩).map (fun p => p.amount) = some 500 := by decide

example :
    parseExpenseWithRegex ("hello no digits").toList true none ⟨2024, 5, 15⟩ = none := by
  decide

example : getSuggestedName ("UPI-ZOMATO-123").toList = ("Upizomato123").toList := by decide

example : getSuggestedName ("8007320919@ybl").toList = ("8007320919ybl").toList := by decide

/-- The decidable pipeline variant agrees with the model. -/
theorem processSmartSms_eq_D (s : Store) (sms sender : Str) (userId : Nat)
    (smsTimestamp : Option Int) (today : YMD) :
    processSmartSms s sms sender userId smsTimestamp today =
      processSmartSmsD s sms sender userId smsTimestamp today := by
  unfold processSmartSms processSmartSmsD
  simp only [validateTransactionSms_isValid_eval, validateTransactionSms_isTransaction_eval]

example :
    ((processSmartSmsD
        ⟨[], [], [], [], 1, 1, 1⟩
        ("Rs 500 debited from A/c XX1234 to 8007320919@ybl").toList
        ("AD-HDFCBK").toList 7 none ⟨2024, 5, 15⟩).2.transactions.map
      fun r => (r.userId, r.merchant, r.originalMerchant)) =
      [(7, ("8007320919ybl").toList, none)] := by decide

/-- Claim C2: with `checkDuplicates = true`, when the store already holds
a row with the same (userId, amount, date, type, merchant),
`insertTransaction` returns that row's id and leaves the store
unchanged; re-inserting an identical record therefore yields exactly one
row, with the second call returning the first call's id and state; with
`checkDuplicates = false` a new row is always appended, even when an
identical row exists. -/
theorem insertTransaction_dedup_policy (s : Store) (t : TxInput) :
    (∀ rid, findDuplicate s t = some rid → insertTransaction s t true = (rid, s)) ∧
    ((insertTransaction (insertTransaction s t true).2 t true).1 =
        (insertTransaction s t true).1 ∧
      (insertTransaction (insertTransaction s t true).2 t true).2 =
        (insertTransaction s t true).2) ∧
    (insertTransaction s t false).2.transactions =
      s.transactions ++ [rowOfInput t s.nextTxId] := by
  refine ⟨fun rid h => ?_, ?_, ?_⟩
  · simp [insertTransaction, h]
  · cases h : findDuplicate s t with
    | some rid => simp [insertTransaction, h]
    | none =>
      have hnone : s.transactions.find? (fun r =>
          r.userId == t.userId && decide (r.amount = t.amount) && r.date == t.date &&
            r.type == t.type && r.merchant == t.merchant) = none := by
        have := h
        unfold findDuplicate at this
        exact Option.map_eq_none.mp this
      have hrow : (fun (r : TxRow) =>
          r.userId == t.userId && decide (r.amount = t.amount) && r.date == t.date &&
            r.type == t.type && r.merchant == t.merchant) (rowOfInput t s.nextTxId) = true := by
        simp [rowOfInput]
      constructor <;>
        simp [insertTransaction, h, findDuplicate, List.find?_append, hnone, hrow,
          rowOfInput]
  · simp [insertTransaction]

/-- Witness for **C2** at a concrete store: a duplicate row (id 7) is
returned unchanged by the duplicate-checking path. -/
theorem insertTransaction_dedup_policy_witness :
    insertTransaction
        ⟨[⟨7, 500, .debit, ("Zomato").toList, none, none, 1, ("2024-01-05").toList,
           none, none, none⟩], [], [], [], 8, 1, 1⟩
        ⟨500, .debit, ("Zomato").toList, none, none, 1, ("2024-01-05").toList,
         none, none, none⟩ true =
      (7, ⟨[⟨7, 500, .debit, ("Zomato").toList, none, none, 1, ("2024-01-05").toList,
            none, none, none⟩], [], [], [], 8, 1, 1⟩) := by
  exact (insertTransaction_dedup_policy _ _).1 7 (by decide)

/-- Claim C1 (code bug): the batch rewrite inside `saveMerchantName` runs
`UPDATE transactions ... WHERE UPPER(merchant) = UPPER(?)` with no
`user_id` condition.  Here the store holds a single transaction owned by
user 1 with merchant `UPI-X`; user 2 saves the rule
`UPI-X -> X Store` (category 5), and user 1's transaction is rewritten
to the new display name and category — the claim's frame condition
("every transaction belonging to any other owner is left unchanged") is
violated. -/
theorem saveMerchantName_crosses_owners :
    (saveMerchantName
        ⟨[⟨1, 100, .debit, ("UPI-X").toList, none, none, 1, ("2024-01-05").toList,
           none, none, none⟩],
         [], [], [], 2, 1, 1⟩
        ("UPI-X").toList (("X Store").toList) (some 5) 2).transactions =
      [⟨1, 100, .debit, ("X Store").toList, some 5, none, 1, ("2024-01-05").toList,
        none, none, none⟩] := by
  decide

/-- Claim C8 (code bug): the unnamed-merchant query computes
`MAX(t.amount)` under the alias `last_amount`, not the amount of the
most recent occurrence.  Owner 1 has two unmapped `UPI-X` transactions:
amount 100 on 2024-01-05 and amount 50 on the later date 2024-02-01.
The returned entry carries `lastAmount = 100` (the maximum), while the
most recent occurrence's amount is 50. -/
theorem getUnnamedMerchants_max_not_latest :
    getUnnamedMerchants
        ⟨[⟨1, 100, .debit, ("UPI-X").toList, none, none, 1, ("2024-01-05").toList,
           none, none, none⟩,
          ⟨2, 50, .debit, ("UPI-X").toList, none, none, 1, ("2024-02-01").toList,
           none, none, none⟩],
         [], [], [], 3, 1, 1⟩ 1 =
      [⟨("UPI-X").toList, 2, 100⟩] ∧ (100 : ℚ) ≠ 50 := by
  constructor
  · decide
  · norm_num

/-- Claim C3 (code bug): the insert literal of `processSmartSms` carries
no `originalMerchant` property, so the column is stored NULL.  On a
fully valid SMS whose parsed raw merchant token is `8007320919@ybl`, the
inserted row holds the resolved display name in `merchant` but `none` in
`original_merchant` — the claim's "original_merchant is populated
(non-null) on every SMS-originated insert" fails. -/
theorem processSmartSms_originalMerchant_null :
    (parseExpense ("Rs 500 debited from A/c XX1234 to 8007320919@ybl").toList
        true none ⟨2024, 5, 15⟩).map (fun p => p.merchant) =
      some (("8007320919@ybl").toList) ∧
    ((processSmartSms ⟨[], [], [], [], 1, 1, 1⟩
        ("Rs 500 debited from A/c XX1234 to 8007320919@ybl").toList
        ("AD-HDFCBK").toList 7 none ⟨2024, 5, 15⟩).2.transactions.map
      fun r => (r.merchant, r.originalMerchant)) =
      [(("8007320919ybl").toList, none)] := by
  constructor
  · decide
  · rw [processSmartSms_eq_D]; decide

/-- Claim C4: for a body matching exactly one bank-indicator category and
no spam indicator, with senders free of the promotional marker, the
accept threshold depends on the sender: a known-bank sender is accepted
(its confidence 0.5 meets the 0.4 known-bank threshold) while an
unknown sender is rejected with the same body (its confidence, 0 here,
is below the 0.8 threshold applied to unknown senders). -/
theorem validateTransactionSms_threshold_sender_dependent
    (sms s1 s2 : Str)
    (h1p : promoSender s1 = false) (h1k : knownBankSender s1 = true)
    (h2p : promoSender s2 = false) (h2k : knownBankSender s2 = false)
    (hb : bankIndicatorHits sms = 1) (hs : spamHits sms = 0) :
    ((validateTransactionSms sms s1).isValid = true ∧
      (validateTransactionSms sms s1).confidence = 1/2 ∧ (2 : ℚ)/5 ≤ 1/2) ∧
    ((validateTransactionSms sms s2).isValid = false ∧
      (validateTransactionSms sms s2).confidence = 0 ∧ (0 : ℚ) < 4/5) := by
  rw [validateTransactionSms_isValid_eval, validateTransactionSms_isValid_eval,
    validateTransactionSms_confidence_eval, validateTransactionSms_confidence_eval]
  simp [h1p, h1k, h2p, h2k, hb, hs]
  norm_num

/-- Witness for **C4**: the body `hello txn` matches only the
transaction-noun indicator; sender `JX-HDFCBK` is on the allow-list,
sender `VM-XYZ` is not. -/
theorem validateTransactionSms_threshold_sender_dependent_witness :
    (validateTransactionSms ("hello txn").toList ("JX-HDFCBK").toList).isValid = true ∧
      (validateTransactionSms ("hello txn").toList ("VM-XYZ").toList).isValid = false := by
  have h := validateTransactionSms_threshold_sender_dependent ("hello txn").toList
    ("JX-HDFCBK").toList ("VM-XYZ").toList (by decide) (by decide) (by decide)
    (by decide) (by decide) (by decide)
  exact ⟨h.1.1, h.2.1⟩

/-- Claim C9: a sender matching none of the allow-list patterns is always
rejected — without the known-sender bonus the confidence never exceeds
0.5, which is strictly below the 0.8 threshold applied to unknown
senders, whatever the message body contains. -/
theorem validateTransactionSms_unknown_sender_never_valid (sms sender : Str)
    (h : knownBankSender sender = false) :
    (validateTransactionSms sms sender).isValid = false ∧
      (validateTransactionSms sms sender).confidence ≤ 1/2 ∧ (1 : ℚ)/2 < 4/5 := by
  rw [validateTransactionSms_isValid_eval, validateTransactionSms_confidence_eval]
  refine ⟨by simp [h], ?_, by norm_num⟩
  split_ifs
  all_goals simp_all

/-- Witness for **C9**: a rich transaction body from the unknown sender
`VM-SPAMCO` is still rejected. -/
theorem validateTransactionSms_unknown_sender_never_valid_witness :
    (validateTransactionSms ("Rs 500 debited from A/c XX1234 via UPI txn").toList
      ("VM-SPAMCO").toList).isValid = false := by
  exact (validateTransactionSms_unknown_sender_never_valid
    ("Rs 500 debited from A/c XX1234 via UPI txn").toList ("VM-SPAMCO").toList
    (by decide)).1

/-- Claim C5: `parseExpenseWithRegex` returns null exactly when one of its
three gates fails: the loose re-validation (digits plus a transaction
verb) fails on the normalized text, or no labeled last-4 account/card
pattern matches while the sender is not a known bank, or no
currency-marker-prefixed amount matches; when all three gates pass a
`ParsedExpense` is returned — merchant and date fall back to defaults
instead of aborting. -/
theorem parseExpenseWithRegex_gates (sms : Str) (isKnownBank : Bool)
    (ts : Option Int) (today : YMD) :
    parseExpenseWithRegex sms isKnownBank ts today = none ↔
      (isValidTransaction sms = false ∨
        (extractLast4 sms = none ∧ isKnownBank = false) ∨
        amountCapture sms = none) := by
  unfold parseExpenseWithRegex normalizeMessage
  by_cases h1 : isValidTransaction sms <;>
    cases h2 : extractLast4 sms <;>
      cases isKnownBank <;>
        cases h3 : amountCapture sms <;>
          simp [h1, h2, h3]

/-- Code points of whitespace characters. -/
theorem spaceCh_toNat {c : Char} (h : isSpaceCh c = true) :
    c.toNat = 32 ∨ c.toNat = 9 ∨ c.toNat = 10 ∨ c.toNat = 13 ∨
      c.toNat = 11 ∨ c.toNat = 12 := by
  simp only [isSpaceCh, Bool.or_eq_true, beq_iff_eq] at h
  rcases h with ((((h | h) | h) | h) | h) | h
  · subst h; exact Or.inl (by decide)
  · subst h; exact Or.inr (Or.inl (by decide))
  · subst h; exact Or.inr (Or.inr (Or.inl (by decide)))
  · subst h; exact Or.inr (Or.inr (Or.inr (Or.inl (by decide))))
  · exact Or.inr (Or.inr (Or.inr (Or.inr (Or.inl (by omega)))))
  · exact Or.inr (Or.inr (Or.inr (Or.inr (Or.inr (by omega)))))

/-- Handle characters sit at or above code point 45, hence are not
whitespace. -/
theorem upiCh_toNat {c : Char} (h : isUpiCh c = true) : 45 ≤ c.toNat := by
  simp only [isUpiCh, isAlnumCh, isLetterCh, isUpperCh, isLowerCh, isDigitCh,
    Bool.or_eq_true, Bool.and_eq_true, decide_eq_true_eq, beq_iff_eq] at h
  rcases h with ((((h | h) | h) | h) | h) | h
  · omega
  · omega
  · omega
  · subst h; decide
  · subst h; decide
  · subst h; decide

/-- Letters sit at or above code point 65. -/
theorem letterCh_toNat {c : Char} (h : isLetterCh c = true) : 65 ≤ c.toNat := by
  simp only [isLetterCh, isUpperCh, isLowerCh, Bool.or_eq_true, Bool.and_eq_true,
    decide_eq_true_eq] at h
  omega

/-- A handle character is not whitespace. -/
theorem upiCh_not_space {c : Char} (h : isUpiCh c = true) : isSpaceCh c = false := by
  by_contra hs
  have h1 := spaceCh_toNat (by simpa using hs)
  have h2 := upiCh_toNat h
  omega

/-- A letter is not whitespace. -/
theorem letterCh_not_space {c : Char} (h : isLetterCh c = true) : isSpaceCh c = false := by
  by_contra hs
  have h1 := spaceCh_toNat (by simpa using hs)
  have h2 := letterCh_toNat h
  omega

/-- Every character of a payment-handle match is a handle character, the
`@`, or a letter; the handle contains `@` and no whitespace, and is
nonempty. -/
theorem upiAt_shape {s u : Str} (h : upiAt s = some u) :
    ('@' ∈ u) ∧ (∀ c ∈ u, isSpaceCh c = false) ∧ u ≠ [] := by
  unfold upiAt at h
  by_cases hrun : (s.takeWhile isUpiCh).isEmpty
  · simp [hrun] at h
  · simp only [hrun, if_false, Bool.false_eq_true] at h
    cases hdrop : s.drop (s.takeWhile isUpiCh).length with
    | nil => rw [hdrop] at h; exact absurd h (by simp)
    | cons c rest =>
      rw [hdrop] at h
      by_cases hc : c = '@'
      · subst hc
        simp only at h
        by_cases hls : (rest.takeWhile isLetterCh).isEmpty
        · simp [hls] at h
        · simp only [hls, if_false, Bool.false_eq_true] at h
          have hu : u = s.takeWhile isUpiCh ++ '@' :: rest.takeWhile isLetterCh :=
            (Option.some_injective _ h).symm
          subst hu
          refine ⟨by simp, fun c hc => ?_, by simp⟩
          rcases List.mem_append.mp hc with hm | hm
          · exact upiCh_not_space (List.mem_takeWhile_imp hm)
          · rcases List.mem_cons.mp hm with rfl | hm
            · decide
            · exact letterCh_not_space (List.mem_takeWhile_imp hm)
      · cases c
        simp_all

/-- The leftmost payment-handle match inherits the anchored match's
shape properties. -/
theorem upiSearch_shape {s u : Str} (h : upiSearch s = some u) :
    ('@' ∈ u) ∧ (∀ c ∈ u, isSpaceCh c = false) ∧ u ≠ [] := by
  induction s with
  | nil =>
    rw [upiSearch, scanFirst] at h
    exact upiAt_shape h
  | cons c cs ih =>
    rw [upiSearch, scanFirst] at h
    cases hat : upiAt (c :: cs) with
    | some v =>
      rw [hat] at h
      simp only [Option.orElse] at h
      cases h
      exact upiAt_shape hat
    | none =>
      rw [hat] at h
      simp only [Option.orElse] at h
      exact ih h

/-- Dropping leading whitespace from an all-non-whitespace string is the
identity. -/
theorem dropWhile_space_eq_self {v : Str} (hv : ∀ c ∈ v, isSpaceCh c = false) :
    v.dropWhile isSpaceCh = v := by
  cases v with
  | nil => rfl
  | cons c cs => simp [List.dropWhile_cons, hv c (by simp)]

/-- Model of `trim` is the identity on strings without whitespace. -/
theorem jsTrim_eq_self {u : Str} (hsp : ∀ c ∈ u, isSpaceCh c = false) :
    jsTrim u = u := by
  unfold jsTrim
  rw [dropWhile_space_eq_self hsp,
    dropWhile_space_eq_self (fun c hc => hsp c (by simpa using hc)),
    List.reverse_reverse]

/-- Model of `cleanMerchantName` preserves a payment handle: a string containing
`@` and no whitespace is returned unchanged by the handle fast path. -/
theorem cleanMerchantName_handle {u : Str} (hat : '@' ∈ u)
    (hsp : ∀ c ∈ u, isSpaceCh c = false) : cleanMerchantName u = u := by
  have hcontains : u.contains '@' = true := by
    simp [List.contains, List.elem_eq_mem, hat]
  have hnospace : u.contains ' ' = false := by
    simp only [List.contains, List.elem_eq_mem, decide_eq_false_iff_not]
    intro hmem
    have := hsp ' ' hmem
    simp [isSpaceCh] at this
  have hcond : (u.contains '@' && !(u.contains ' ')) = true := by
    rw [hcontains, hnospace]; rfl
  unfold cleanMerchantName
  rw [jsTrim_eq_self hsp]
  simp only [hcond, if_true]

/-- Claim C6: whenever extraction succeeds and the message contains a
payment-handle token whose first match does not contain `.com`, the
parsed merchant is that handle verbatim — not title-cased, not
prefix-stripped, and not replaced by the knowledge-base fast path. -/
theorem parseExpenseWithRegex_handle_verbatim (sms : Str) (isKnownBank : Bool)
    (ts : Option Int) (today : YMD) (p : ParsedExpense) (u : Str)
    (hp : parseExpenseWithRegex sms isKnownBank ts today = some p)
    (hu : upiSearch sms = some u)
    (hcom : containsCS (".com").toList u = false) :
    p.merchant = u := by
  obtain ⟨hat, hsp, hne⟩ := upiSearch_shape hu
  unfold parseExpenseWithRegex normalizeMessage at hp
  have hie : u.isEmpty = false := by
    cases u with
    | nil => exact absurd rfl hne
    | cons a as => rfl
  by_cases h1 : isValidTransaction sms
  · by_cases h2 : ((extractLast4 sms).isNone && !isKnownBank) = true
    · simp [h1, h2] at hp
    · cases h3 : amountCapture sms with
      | none => simp [h1, h2, h3] at hp
      | some cap =>
        simp only [h1, h2, h3, hu, hcom, Bool.not_true, Bool.not_false,
          Bool.false_eq_true, Bool.true_eq_false, if_false, if_true,
          cleanMerchantName_handle hat hsp, hie, Option.some.injEq] at hp
        rw [← hp]
  · simp [h1] at hp

/-- Witness for **C6**: the handle `8007320919@ybl` survives extraction
verbatim. -/
theorem parseExpenseWithRegex_handle_verbatim_witness :
    ((parseExpenseWithRegex ("Rs 500 debited from A/c XX1234 to 8007320919@ybl").toList
        true none ⟨2024, 5, 15⟩).map fun p => p.merchant) =
      some (("8007320919@ybl").toList) := by
  have hp : parseExpenseWithRegex
      ("Rs 500 debited from A/c XX1234 to 8007320919@ybl").toList true none ⟨2024, 5, 15⟩ =
      some ⟨500, ("8007320919@ybl").toList, .debit, ("2024-05-15").toList,
        some (("1234").toList)⟩ := by decide
  rw [hp]
  exact congrArg some (parseExpenseWithRegex_handle_verbatim _ _ _ _ _ _ hp (by decide)
    (by decide))

/-- Model of `takeWhile` runs through a prefix all of whose elements satisfy the
predicate. -/
theorem takeWhile_append_all {p : Char → Bool} {l1 l2 : Str}
    (h : ∀ c ∈ l1, p c = true) : (l1 ++ l2).takeWhile p = l1 ++ l2.takeWhile p := by
  induction l1 with
  | nil => rfl
  | cons c cs ih =>
    simp [List.takeWhile_cons, h c (by simp), ih fun d hd => h d (by simp [hd])]

/-- A comma is not a digit. -/
theorem digit_ne_comma {c : Char} (h : isDigitCh c = true) : (c == ',') = false := by
  simp only [isDigitCh, Bool.and_eq_true, decide_eq_true_eq] at h
  simp only [beq_eq_false_iff_ne, ne_eq]
  intro hc
  subst hc
  revert h
  decide

/-- Model of `digitsVal` of a two-character digit string. -/
theorem digitsVal_pair (d1 d2 : Char) :
    digitsVal [d1, d2] = 10 * (d1.toNat - 48) + (d2.toNat - 48) := by
  simp [digitsVal, List.foldl]
  omega

/-- Claim C10: the amount pattern accepts a fractional part only when it
has exactly two digits.  `Rs 500.5 debited from A/c XX1234` captures
`500` and parses to amount 500, silently dropping the one-digit
fraction; `Rs. 1,234.50 debited from A/c XX1234` parses to exactly
1234.50, comma separator stripped; and in general `parseAmount` reads a
captured digit run exactly, reads a digit run with a two-digit fraction
exactly, and is unchanged by inserting a comma. -/
theorem amountPattern_two_decimal_semantics
    (intPart : Str) (hd : ∀ c ∈ intPart, isDigitCh c = true)
    (d1 d2 : Char) (h1 : isDigitCh d1 = true) (h2 : isDigitCh d2 = true) :
    (amountCapture ("Rs 500.5 debited from A/c XX1234").toList = some (("500").toList) ∧
      ((parseExpenseWithRegex ("Rs 500.5 debited from A/c XX1234").toList true none
          ⟨2024, 1, 1⟩).map fun p => p.amount) = some 500) ∧
    ((parseExpenseWithRegex ("Rs. 1,234.50 debited from A/c XX1234").toList true none
        ⟨2024, 1, 1⟩).map fun p => p.amount) = some (2469/2) ∧
    parseAmount intPart = digitsVal intPart ∧
    parseAmount (intPart ++ '.' :: [d1, d2]) =
      digitsVal intPart + ((10 * (d1.toNat - 48) + (d2.toNat - 48) : ℕ) : ℚ) / 100 ∧
    ∀ pre post : Str, parseAmount (pre ++ ',' :: post) = parseAmount (pre ++ post) := by
  have hfilter : intPart.filter (fun c => !(c == ',')) = intPart := by
    apply List.filter_eq_self.mpr
    intro c hc
    simp [digit_ne_comma (hd c hc)]
  refine ⟨⟨by decide, by decide⟩, ?_, ?_, ?_, ?_⟩
  · have hconc : ((parseExpenseWithRegex ("Rs. 1,234.50 debited from A/c XX1234").toList
        true none ⟨2024, 1, 1⟩).map fun p => p.amount) = some (mkRat 123450 100) := by
      decide
    rw [hconc]
    congr 1
    rw [Rat.mkRat_eq_div]
    norm_num
  · unfold parseAmount jsParseFloat
    rw [hfilter, List.takeWhile_eq_self_iff.mpr hd]
    simp
  · have hfilter2 : (intPart ++ '.' :: [d1, d2]).filter (fun c => !(c == ',')) =
        intPart ++ '.' :: [d1, d2] := by
      apply List.filter_eq_self.mpr
      intro c hc
      rcases List.mem_append.mp hc with hm | hm
      · simp [digit_ne_comma (hd c hm)]
      · rcases List.mem_cons.mp hm with rfl | hm
        · decide
        · rcases List.mem_cons.mp hm with rfl | hm
          · simp [digit_ne_comma h1]
          · rcases List.mem_cons.mp hm with rfl | hm
            · simp [digit_ne_comma h2]
            · simp at hm
    have hdot : List.takeWhile isDigitCh ('.' :: [d1, d2]) = ([] : Str) := by
      simp [List.takeWhile_cons, isDigitCh]
    unfold parseAmount jsParseFloat
    rw [hfilter2]
    simp only [takeWhile_append_all hd, hdot, List.append_nil, List.drop_left]
    simp only [List.takeWhile_cons, h1, if_true, h2, List.takeWhile_nil]
    rw [digitsVal_pair]
    rw [Rat.mkRat_eq_div]
    push_cast
    field_simp
    ring
  · intro pre post
    unfold parseAmount
    simp [List.filter_append]

/-- Witness for **C10**: `1234.50` parses to 1234 + 50/100. -/
theorem amountPattern_two_decimal_semantics_witness :
    parseAmount (("1234").toList ++ '.' :: ['5', '0']) =
      digitsVal (("1234").toList) +
        ((10 * (('5').toNat - 48) + (('0').toNat - 48) : ℕ) : ℚ) / 100 := by
  exact (amountPattern_two_decimal_semantics ("1234").toList (by decide) '5' '0'
    (by decide) (by decide)).2.2.2.1

/-- Evaluation of the pattern heuristic on three equal-key debit rows
whose amounts pass the 5%-of-mean test and whose dates are spaced 29
then 31 days: mean interval 30, band `monthly`, confidence
`1 - |30 - 30| / 30 = 1`, next date one calendar month after the last
occurrence. -/
theorem detectPatternHeuristic_monthly
    (a1 a2 a3 : ℚ) (d1 d2 d3 : YMD)
    (hmean : (a1 + a2 + a3) / 3 ≠ 0)
    (hvar : ∀ a ∈ [a1, a2, a3], |a - (a1 + a2 + a3) / 3| / ((a1 + a2 + a3) / 3) < 1/20)
    (h21 : toDays d2 - toDays d1 = 29) (h32 : toDays d3 - toDays d2 = 31) :
    detectPatternHeuristic [a1, a2, a3] [d1, d2, d3] =
      some ⟨(a1 + a2 + a3) / 3, .monthly, 1, isoOfYMD (jsAddMonths d3 1)⟩ := by
  have havg : ([a1, a2, a3] : List ℚ).sum / (([a1, a2, a3] : List ℚ).length : ℚ) =
      (a1 + a2 + a3) / 3 := by
    simp [List.sum_cons, List.sum_nil]
    ring
  have hint : intervalsOf [d1, d2, d3] = [(29 : ℚ), 31] := by
    unfold intervalsOf
    simp only [List.tail_cons, List.zip_cons_cons, List.zip_nil_right, List.map_cons,
      List.map_nil]
    rw [show toDays d2 - toDays d1 = (29 : Int) from h21,
      show toDays d3 - toDays d2 = (31 : Int) from h32]
    norm_num
  unfold detectPatternHeuristic
  rw [hint, havg]
  simp only [List.length_cons, List.length_nil]
  norm_num
  refine ⟨⟨?_, hvar a1 (by simp), hvar a2 (by simp), hvar a3 (by simp)⟩, rfl⟩
  intro h0
  exact hmean (by rw [h0]; norm_num)

/-- Claim C7 (counterexample to the claim as stated): three debit rows for
merchant key `NETFLIX`, amount 199 each, dated 2024-01-01, 2024-01-30
and 2024-03-01 (gaps 29 and 31 days), scanned on 2024-03-15.  Exactly
one subscription is emitted, `monthly`, amount 199 (the mean),
confidence 1 — but its next expected date is `2024-04-01` (one calendar
month after the last occurrence), whereas thirty days after the last
occurrence is `2024-03-31`: the claim's "i.e. 30 days after the last
occurrence" is false here. -/
theorem detectSubscriptions_nextDate_counterexample :
    ((detectSubscriptions
        ⟨[⟨1, 199, .debit, ("NETFLIX").toList, none, none, 1, ("2024-01-01").toList,
           none, none, none⟩,
          ⟨2, 199, .debit, ("NETFLIX").toList, none, none, 1, ("2024-01-30").toList,
           none, none, none⟩,
          ⟨3, 199, .debit, ("NETFLIX").toList, none, none, 1, ("2024-03-01").toList,
           none, none, none⟩],
         [], [], [], 4, 1, 1⟩ 1 ⟨2024, 3, 15⟩).map fun sub =>
        (sub.merchant, sub.amount, sub.frequency, sub.confidence, sub.nextExpectedDate)) =
      [(("NETFLIX").toList, (199 : ℚ), Frequency.monthly, (1 : ℚ), ("2024-04-01").toList)] ∧
    isoOfYMD (jsAddDays ⟨2024, 3, 1⟩ 30) = ("2024-03-31").toList ∧
    ("2024-04-01").toList ≠ ("2024-03-31").toList := by
  refine ⟨?_, by decide, by decide⟩
  have hg : subGroups
      ⟨[⟨1, 199, .debit, ("NETFLIX").toList, none, none, 1, ("2024-01-01").toList,
         none, none, none⟩,
        ⟨2, 199, .debit, ("NETFLIX").toList, none, none, 1, ("2024-01-30").toList,
         none, none, none⟩,
        ⟨3, 199, .debit, ("NETFLIX").toList, none, none, 1, ("2024-03-01").toList,
         none, none, none⟩],
       [], [], [], 4, 1, 1⟩ 1 ⟨2024, 3, 15⟩ =
      [(("NETFLIX").toList,
        [⟨1, 199, .debit, ("NETFLIX").toList, none, none, 1, ("2024-01-01").toList,
          none, none, none⟩,
         ⟨2, 199, .debit, ("NETFLIX").toList, none, none, 1, ("2024-01-30").toList,
          none, none, none⟩,
         ⟨3, 199, .debit, ("NETFLIX").toList, none, none, 1, ("2024-03-01").toList,
          none, none, none⟩])] := by decide
  unfold detectSubscriptions
  rw [hg]
  simp only [List.filterMap_cons, List.filterMap_nil, List.map_cons, List.map_nil]
  rw [show ymdOfIso ("2024-01-01").toList = ⟨2024, 1, 1⟩ from by decide,
    show ymdOfIso ("2024-01-30").toList = ⟨2024, 1, 30⟩ from by decide,
    show ymdOfIso ("2024-03-01").toList = ⟨2024, 3, 1⟩ from by decide]
  rw [detectPatternHeuristic_monthly 199 199 199 ⟨2024, 1, 1⟩ ⟨2024, 1, 30⟩ ⟨2024, 3, 1⟩
    (by norm_num) (by intro a ha; fin_cases ha <;> norm_num) (by decide) (by decide)]
  simp
  constructor
  · norm_num
  · decide

/-- Claim C7 (amended): for an owner with exactly three debit transactions
for one merchant key within the detection window, amounts all within 5%
of their mean and dates spaced 29 then 31 days apart (in table order),
`detectSubscriptions` emits exactly one subscription for that merchant
with frequency `monthly`, amount the mean, confidence
`1 - |30 - 30| / 30 = 1 > 0.9`, and a next expected date equal to the
most recent occurrence advanced by one **calendar month** (28-31 days
later depending on the month, not a fixed 30 days). -/
theorem detectSubscriptions_monthly_calendar_next (u : Nat) (k : Str)
    (a1 a2 a3 : ℚ) (s1 s2 s3 : Str) (today : YMD)
    (cat1 cat2 cat3 acc1 acc2 acc3 : Option Nat)
    (raw1 raw2 raw3 n1 n2 n3 : Option Str) (nid mid aid : Nat)
    (maps : List MappingRow) (accs : List AccountRow) (cats : List CategoryRow)
    (hmean : (a1 + a2 + a3) / 3 ≠ 0)
    (hvar : ∀ a ∈ [a1, a2, a3], |a - (a1 + a2 + a3) / 3| / ((a1 + a2 + a3) / 3) < 1/20)
    (h21 : toDays (ymdOfIso s2) = toDays (ymdOfIso s1) + 29)
    (h32 : toDays (ymdOfIso s3) = toDays (ymdOfIso s2) + 31)
    (hw : toDays (jsAddMonths today (-6)) ≤ toDays (ymdOfIso s1)) :
    detectSubscriptions
      ⟨[⟨1, a1, .debit, k, cat1, acc1, u, s1, raw1, n1, none⟩,
        ⟨2, a2, .debit, k, cat2, acc2, u, s2, raw2, n2, none⟩,
        ⟨3, a3, .debit, k, cat3, acc3, u, s3, raw3, n3, none⟩],
       maps, accs, cats, nid, mid, aid⟩ u today =
      [⟨k, (a1 + a2 + a3) / 3, .monthly, 1,
        isoOfYMD (jsAddMonths (ymdOfIso s3) 1), [1, 2, 3]⟩] ∧
    (9 : ℚ)/10 < 1 := by
  refine ⟨?_, by norm_num⟩
  have hw2 : toDays (jsAddMonths today (-6)) ≤ toDays (ymdOfIso s2) := by omega
  have hw3 : toDays (jsAddMonths today (-6)) ≤ toDays (ymdOfIso s3) := by omega
  have hfilter : List.filter (fun r => r.type == TxType.debit && r.userId == u &&
      decide (toDays (jsAddMonths today (-6)) ≤ toDays (ymdOfIso r.date)))
      ([⟨1, a1, .debit, k, cat1, acc1, u, s1, raw1, n1, none⟩,
        ⟨2, a2, .debit, k, cat2, acc2, u, s2, raw2, n2, none⟩,
        ⟨3, a3, .debit, k, cat3, acc3, u, s3, raw3, n3, none⟩] : List TxRow) =
      [⟨1, a1, .debit, k, cat1, acc1, u, s1, raw1, n1, none⟩,
        ⟨2, a2, .debit, k, cat2, acc2, u, s2, raw2, n2, none⟩,
        ⟨3, a3, .debit, k, cat3, acc3, u, s3, raw3, n3, none⟩] := by
    apply List.filter_eq_self.mpr
    intro r hr
    rcases List.mem_cons.mp hr with rfl | hr
    · simp [hw]
    · rcases List.mem_cons.mp hr with rfl | hr
      · simp [hw2]
      · rcases List.mem_cons.mp hr with rfl | hr
        · simp [hw3]
        · simp at hr
  simp only [detectSubscriptions, subGroups, hfilter]
  simp [subKey, firstOccur, sortDescBy, insertDescBy]
  simp only [List.filterMap_cons, List.filterMap_nil, List.map_cons, List.map_nil]
  rw [detectPatternHeuristic_monthly a1 a2 a3 (ymdOfIso s1) (ymdOfIso s2) (ymdOfIso s3)
    hmean hvar (by omega) (by omega)]
  simp

/-- Witness for the amended **C7** at concrete data: amounts 150 and
dates 2024-01-01, 2024-01-30, 2024-03-01 for key `GYM`, scanned on
2024-04-10. -/
theorem detectSubscriptions_monthly_calendar_next_witness :
    detectSubscriptions
      ⟨[⟨1, 150, .debit, ("GYM").toList, none, none, 2, ("2024-01-01").toList,
         none, none, none⟩,
        ⟨2, 150, .debit, ("GYM").toList, none, none, 2, ("2024-01-30").toList,
         none, none, none⟩,
        ⟨3, 150, .debit, ("GYM").toList, none, none, 2, ("2024-03-01").toList,
         none, none, none⟩],
       [], [], [], 4, 1, 1⟩ 2 ⟨2024, 4, 10⟩ =
      [⟨("GYM").toList, (150 + 150 + 150) / 3, .monthly, 1,
        isoOfYMD (jsAddMonths (ymdOfIso (("2024-03-01").toList)) 1), [1, 2, 3]⟩] := by
  exact (detectSubscriptions_monthly_calendar_next 2 (("GYM").toList) 150 150 150
    (("2024-01-01").toList) (("2024-01-30").toList) (("2024-03-01").toList) ⟨2024, 4, 10⟩
    none none none none none none none none none none none none 4 1 1 [] [] []
    (by norm_num) (by intro a ha; fin_cases ha <;> norm_num) (by decide) (by decide)
    (by decide)).1
